import Mathlib

/-!
Verification development for the gateway trading adapter of hummingbot-api.

The definitions below are shallow embeddings of the Python source:
  src/routers/gateway_trading.py  (routing handlers, pool/wallet resolution,
                                   price-range computation, in-range derivation)
  src/routers/gateway.py          (camel_to_snake, snake_to_camel)
  src/services/gateway_client.py  (GatewayClient: ping, wallet listing,
                                   default-wallet resolution, CLMM calls)

Strings are modelled as `List Char` where character-level reasoning is needed
(the naming codecs, identifier parsing) and as `String` in the request
pipeline.  Python `Decimal`/`float` values are modelled as `ℚ`.  Each fallible
step returns `Except`; upstream (gateway) interactions are modelled by a
reader-style state: a `Gateway` record holding the canned response of every
endpoint, together with an accumulated trace of the downstream calls issued.
-/

/-! ## Character primitives (ASCII, as used by the Python regexes and case maps) -/

/-- Membership in the regex class `[a-z]`. -/
def isLowAZ (c : Char) : Bool := 97 ≤ c.toNat && c.toNat ≤ 122

/-- Membership in the regex class `[A-Z]`. -/
def isUpAZ (c : Char) : Bool := 65 ≤ c.toNat && c.toNat ≤ 90

/-- Membership in the regex class `[a-z0-9]` (group 1 of the second
`camel_to_snake` substitution). -/
def isLowDigit (c : Char) : Bool := isLowAZ c || (48 ≤ c.toNat && c.toNat ≤ 57)

/-- ASCII upper-casing of one character (Python `str.upper` on the ASCII range). -/
def upChar (c : Char) : Char := if isLowAZ c then Char.ofNat (c.toNat - 32) else c

/-- ASCII lower-casing of one character (Python `str.lower` on the ASCII range). -/
def lowChar (c : Char) : Char := if isUpAZ c then Char.ofNat (c.toNat + 32) else c

theorem charToNat_ofNat_small (n : Nat) (h : n < 55296) : (Char.ofNat n).toNat = n := by
  unfold Char.ofNat
  simp [Nat.isValidChar, h, Char.ofNatAux, Char.toNat, UInt32.toNat, UInt32.ofNatCore]

theorem toNat_lt_valid (c : Char) : c.toNat < 1114112 := by
  have := c.valid
  rcases this with h | h
  · have : c.toNat < 55296 := h
    omega
  · exact h.2

theorem isUpAZ_upChar (c : Char) (h : isLowAZ c = true) : isUpAZ (upChar c) = true := by
  simp [isLowAZ, Bool.and_eq_true, decide_eq_true_eq] at h
  simp [upChar, isLowAZ, h, isUpAZ]
  rw [charToNat_ofNat_small _ (by omega)]
  constructor <;> omega

theorem isLowAZ_upChar (c : Char) (h : isLowAZ c = true) : isLowAZ (upChar c) = false := by
  simp [isLowAZ, Bool.and_eq_true, decide_eq_true_eq] at h
  simp [upChar, isLowAZ, h]
  rw [charToNat_ofNat_small _ (by omega)]
  omega

theorem isLowDigit_upChar (c : Char) (h : isLowAZ c = true) : isLowDigit (upChar c) = false := by
  simp [isLowAZ, Bool.and_eq_true, decide_eq_true_eq] at h
  simp [isLowDigit, upChar, isLowAZ, h]
  rw [charToNat_ofNat_small _ (by omega)]
  constructor <;> omega

theorem lowChar_upChar (c : Char) (h : isLowAZ c = true) : lowChar (upChar c) = c := by
  simp [isLowAZ, Bool.and_eq_true, decide_eq_true_eq] at h
  have h1 : (Char.ofNat (c.toNat - 32)).toNat = c.toNat - 32 :=
    charToNat_ofNat_small _ (by omega)
  simp [upChar, isLowAZ, h, lowChar, isUpAZ, h1]
  rw [show c.toNat - 32 + 32 = c.toNat by omega]
  rw [if_pos (by omega)]
  exact Char.ofNat_toNat c

theorem lowChar_fix (c : Char) (h : isLowAZ c = true) : lowChar c = c := by
  simp [isLowAZ, Bool.and_eq_true, decide_eq_true_eq] at h
  simp [lowChar, isUpAZ]
  omega

theorem not_isUpAZ_of_isLowAZ (c : Char) (h : isLowAZ c = true) : isUpAZ c = false := by
  simp [isLowAZ, Bool.and_eq_true, decide_eq_true_eq] at h
  simp [isUpAZ]
  omega

theorem not_isLowAZ_of_isUpAZ (c : Char) (h : isUpAZ c = true) : isLowAZ c = false := by
  simp [isUpAZ, Bool.and_eq_true, decide_eq_true_eq] at h
  simp [isLowAZ]
  omega

theorem ne_underscore_of_isLowAZ (c : Char) (h : isLowAZ c = true) : c ≠ '_' := by
  intro he
  subst he
  simp [isLowAZ] at h

/-! ## Splitting and joining (Python `str.split`) -/

/-- Python `s.split(sep)` with a one-character separator and no maxsplit:
always returns at least one (possibly empty) component. -/
def splitOnChar (sep : Char) : List Char → List (List Char)
  | [] => [[]]
  | c :: rest =>
    match splitOnChar sep rest with
    | t :: ts => if c = sep then [] :: t :: ts else (c :: t) :: ts
    | [] => [[c]]

/-- Python `s.split('-', 1)`: split on the first hyphen only.  `none` when the
string contains no hyphen (Python returns a one-element list there). -/
def splitFirstHyphen : List Char → Option (List Char × List Char)
  | [] => none
  | c :: rest =>
    if c = '-' then some ([], rest)
    else (splitFirstHyphen rest).map (fun p => (c :: p.1, p.2))

/-- Joining with a one-character separator (Python `sep.join`). -/
def joinWithChar (sep : Char) : List (List Char) → List Char
  | [] => []
  | [t] => t
  | t :: ts => t ++ sep :: joinWithChar sep ts

theorem splitOnChar_ne_nil (sep : Char) (s : List Char) : splitOnChar sep s ≠ [] := by
  cases s with
  | nil => simp [splitOnChar]
  | cons c rest =>
    simp only [splitOnChar]
    cases h : splitOnChar sep rest with
    | nil => simp
    | cons t ts =>
      by_cases hc : c = sep <;> simp [hc]

theorem splitOnChar_sep_free (sep : Char) (t : List Char) (h : sep ∉ t) :
    splitOnChar sep t = [t] := by
  induction t with
  | nil => rfl
  | cons c rest ih =>
    have hc : c ≠ sep := by
      intro he
      exact h (by simp [he])
    have hrest : sep ∉ rest := by
      intro hm
      exact h (by simp [hm])
    simp [splitOnChar, ih hrest, hc]

theorem splitOnChar_append_sep (sep : Char) (t w : List Char) (h : sep ∉ t) :
    splitOnChar sep (t ++ sep :: w) = t :: splitOnChar sep w := by
  induction t with
  | nil =>
    simp only [List.nil_append, splitOnChar]
    cases hs : splitOnChar sep w with
    | nil => exact absurd hs (splitOnChar_ne_nil sep w)
    | cons u us => simp
  | cons c rest ih =>
    have hc : c ≠ sep := by
      intro he
      exact h (by simp [he])
    have hrest : sep ∉ rest := by
      intro hm
      exact h (by simp [hm])
    simp only [List.cons_append, splitOnChar, List.append_eq]
    rw [ih hrest]
    simp [hc]

/-- Splitting undoes joining, provided the separator occurs in no component. -/
theorem splitOnChar_joinWithChar (sep : Char) (t : List Char) (ts : List (List Char))
    (h : ∀ u ∈ t :: ts, sep ∉ u) :
    splitOnChar sep (joinWithChar sep (t :: ts)) = t :: ts := by
  induction ts generalizing t with
  | nil => exact splitOnChar_sep_free sep t (h t (by simp))
  | cons u us ih =>
    have : joinWithChar sep (t :: u :: us) = t ++ sep :: joinWithChar sep (u :: us) := rfl
    rw [this, splitOnChar_append_sep sep t _ (h t (by simp))]
    rw [ih u (fun v hv => h v (by simp at hv ⊢; tauto))]

/-! ## Network-id codec (src/routers/gateway_trading.py lines 40-51,
src/routers/gateway.py lines 309-330) -/

/-- Embedding of `parse_network_id`: split `'chain-network'` on the first
hyphen; `ValueError` when there is no hyphen. -/
def parse_network_id (networkId : List Char) : Except (List Char) (List Char × List Char) :=
  match splitFirstHyphen networkId with
  | some p => .ok p
  | none =>
    .error ("Invalid network_id format. Expected \x27chain-network\x27, got \x27".data
      ++ networkId ++ "\x27".data)

/-- Embedding of the composition `network_id = f"{chain}-{network}"` used by
`get_chain_network_config` (src/routers/gateway.py line 328). -/
def composeNetworkId (chain network : List Char) : List Char := chain ++ '-' :: network

theorem splitFirstHyphen_compose (chain network : List Char) (h : '-' ∉ chain) :
    splitFirstHyphen (chain ++ '-' :: network) = some (chain, network) := by
  induction chain with
  | nil => simp [splitFirstHyphen]
  | cons c rest ih =>
    have hc : c ≠ '-' := by
      intro he
      exact h (by simp [he])
    have hrest : '-' ∉ rest := by
      intro hm
      exact h (by simp [hm])
    simp [splitFirstHyphen, hc, ih hrest]

theorem splitFirstHyphen_no_hyphen (s : List Char) (h : '-' ∉ s) :
    splitFirstHyphen s = none := by
  induction s with
  | nil => rfl
  | cons c rest ih =>
    have hc : c ≠ '-' := by
      intro he
      exact h (by simp [he])
    have hrest : '-' ∉ rest := by
      intro hm
      exact h (by simp [hm])
    simp [splitFirstHyphen, hc, ih hrest]

/-! ## The wire-naming codec (src/routers/gateway.py lines 13-46) -/

/-- First substitution of `camel_to_snake`:
`re.sub('(.)([A-Z][a-z]+)', r'\1_\2', name)`, embedded as a fuel-indexed scan.
The Bool mode is `true` while copying the greedy `[a-z]+` run of an active
match (the scan resumes after the run, exactly like `re.sub`).  Fuel is
decremented on every step; `sub1` below supplies `length` fuel, which is
always sufficient since every step consumes at least one character. -/
def sub1F : Nat → Bool → List Char → List Char
  | 0, _, l => l
  | _ + 1, _, [] => []
  | n + 1, true, c :: t =>
    if isLowAZ c then c :: sub1F n true t
    else
      match t with
      | b :: b2 :: t2 =>
        if isUpAZ b && isLowAZ b2 then c :: '_' :: b :: sub1F n true (b2 :: t2)
        else c :: sub1F n false t
      | _ => c :: sub1F n false t
  | n + 1, false, a :: t =>
    match t with
    | b :: b2 :: t2 =>
      if isUpAZ b && isLowAZ b2 then a :: '_' :: b :: sub1F n true (b2 :: t2)
      else a :: sub1F n false t
    | _ => a :: sub1F n false t

/-- The first `camel_to_snake` substitution, scanning from a fresh position. -/
def sub1 (l : List Char) : List Char := sub1F l.length false l

/-- The first `camel_to_snake` substitution, resuming inside a lowercase run
that an earlier match consumed. -/
def sub1t (l : List Char) : List Char := sub1F l.length true l

/-- Second substitution of `camel_to_snake`:
`re.sub('([a-z0-9])([A-Z])', r'\1_\2', name)`; the two matched characters are
consumed and the scan resumes after them. -/
def sub2 : List Char → List Char
  | a :: b :: t =>
    if isLowDigit a && isUpAZ b then a :: '_' :: b :: sub2 t
    else a :: sub2 (b :: t)
  | l => l

/-- Embedding of `camel_to_snake` (src/routers/gateway.py lines 13-16): the two
regex substitutions followed by `str.lower()`. -/
def camel_to_snake (name : List Char) : List Char := (sub2 (sub1 name)).map lowChar

/-- Python `str.title()` semantics on the ASCII range: a letter that follows a
non-letter is upper-cased, a letter that follows a letter is lower-cased. -/
def pyTitleGo : List Char → Bool → List Char
  | [], _ => []
  | c :: rest, prevCased =>
    (if isLowAZ c || isUpAZ c then (if prevCased then lowChar c else upChar c) else c)
      :: pyTitleGo rest (isLowAZ c || isUpAZ c)

def pyTitle (s : List Char) : List Char := pyTitleGo s false

/-- The fixed acronym table of `snake_to_camel`. -/
def acronyms : List (List Char) :=
  [['u', 'r', 'l'], ['c', 'u'], ['i', 'd'], ['a', 'p', 'i'], ['r', 'p', 'c'], ['u', 'r', 'i']]

/-- Embedding of `snake_to_camel` (src/routers/gateway.py lines 19-46): split on
underscores, keep the first component unchanged, upper-case acronym components
and title-case the rest. -/
def snake_to_camel (name : List Char) : List Char :=
  match splitOnChar '_' name with
  | [] => []
  | t0 :: rest =>
    t0 ++ (rest.map (fun comp =>
      if comp.map lowChar ∈ acronyms then comp.map upChar else pyTitle comp)).flatten

/-- Capitalisation of an all-lowercase token (what `str.title()` does to it). -/
def capTok : List Char → List Char
  | [] => []
  | c :: r => upChar c :: r

/-- The concatenation of capitalised blocks that `snake_to_camel` produces
after the initial component, when no component is an acronym. -/
def camelCat (ts : List (List Char)) : List Char := (ts.map capTok).flatten

/-! Step lemmas for `sub1`/`sub1t` (fuel elimination). -/

theorem sub1F_nil (n : Nat) (mode : Bool) : sub1F n mode [] = [] := by
  cases n with
  | zero => rfl
  | succ n => cases mode <;> rfl

theorem sub1F_step_false3 (n : Nat) (a b c : Char) (t : List Char) :
    sub1F (n + 1) false (a :: b :: c :: t) =
      if isUpAZ b && isLowAZ c then a :: '_' :: b :: sub1F n true (c :: t)
      else a :: sub1F n false (b :: c :: t) := rfl

theorem sub1F_step_false2 (n : Nat) (a b : Char) :
    sub1F (n + 1) false [a, b] = a :: sub1F n false [b] := rfl

theorem sub1F_step_false1 (n : Nat) (a : Char) :
    sub1F (n + 1) false [a] = a :: sub1F n false [] := rfl

theorem sub1F_step_true (n : Nat) (c : Char) (t : List Char) :
    sub1F (n + 1) true (c :: t) =
      if isLowAZ c then c :: sub1F n true t else sub1F (n + 1) false (c :: t) := by
  by_cases hc : isLowAZ c = true
  · rw [if_pos hc]
    show (if isLowAZ c then c :: sub1F n true t else _) = _
    rw [if_pos hc]
  · rw [if_neg hc]
    show (if isLowAZ c then c :: sub1F n true t else _) = _
    rw [if_neg hc]
    cases t with
    | nil => rfl
    | cons b t1 => cases t1 <;> rfl

theorem sub1F_fuel (n : Nat) : ∀ (m : Nat) (mode : Bool) (l : List Char),
    l.length ≤ n → l.length ≤ m → sub1F n mode l = sub1F m mode l := by
  induction n with
  | zero =>
    intro m mode l hn _
    have : l = [] := List.length_eq_zero.mp (Nat.le_zero.mp hn)
    subst this
    rw [sub1F_nil, sub1F_nil]
  | succ n ih =>
    intro m mode l hn hm
    cases l with
    | nil => rw [sub1F_nil, sub1F_nil]
    | cons c t =>
      cases m with
      | zero => simp at hm
      | succ m =>
        simp only [List.length_cons, Nat.succ_le_succ_iff] at hn hm
        have hfalse : sub1F (n + 1) false (c :: t) = sub1F (m + 1) false (c :: t) := by
          cases t with
          | nil => rw [sub1F_step_false1, sub1F_step_false1, sub1F_nil, sub1F_nil]
          | cons b t1 =>
            cases t1 with
            | nil =>
              rw [sub1F_step_false2, sub1F_step_false2]
              rw [ih m false [b] (by simp at hn ⊢; omega) (by simp at hm ⊢; omega)]
            | cons b2 t2 =>
              rw [sub1F_step_false3, sub1F_step_false3]
              by_cases hb : (isUpAZ b && isLowAZ b2) = true
              · rw [if_pos hb, if_pos hb]
                rw [ih m true (b2 :: t2) (by simp at hn ⊢; omega) (by simp at hm ⊢; omega)]
              · rw [if_neg hb, if_neg hb]
                rw [ih m false (b :: b2 :: t2) (by simpa using hn) (by simpa using hm)]
        cases mode with
        | false => exact hfalse
        | true =>
          rw [sub1F_step_true, sub1F_step_true]
          by_cases hc : isLowAZ c = true
          · rw [if_pos hc, if_pos hc]
            rw [ih m true t (by omega) (by omega)]
          · rw [if_neg hc, if_neg hc]
            exact hfalse

theorem sub1t_nil : sub1t [] = [] := rfl

theorem sub1_nil : sub1 [] = [] := rfl

theorem sub1t_cons_low (c : Char) (t : List Char) (h : isLowAZ c = true) :
    sub1t (c :: t) = c :: sub1t t := by
  show sub1F (t.length + 1) true (c :: t) = c :: sub1t t
  rw [sub1F_step_true, if_pos h]
  rfl

theorem sub1t_cons_notlow (c : Char) (t : List Char) (h : isLowAZ c = false) :
    sub1t (c :: t) = sub1 (c :: t) := by
  show sub1F (t.length + 1) true (c :: t) = sub1 (c :: t)
  rw [sub1F_step_true, if_neg (by simp [h])]
  rfl

theorem sub1_one (a : Char) : sub1 [a] = [a] := by
  show sub1F 1 false [a] = [a]
  rw [sub1F_step_false1, sub1F_nil]

theorem sub1_two (a b : Char) : sub1 [a, b] = [a, b] := by
  show sub1F 2 false [a, b] = [a, b]
  rw [sub1F_step_false2, sub1F_step_false1, sub1F_nil]

theorem sub1_cons3 (a b c : Char) (t : List Char) :
    sub1 (a :: b :: c :: t) =
      if isUpAZ b && isLowAZ c then a :: '_' :: b :: sub1t (c :: t)
      else a :: sub1 (b :: c :: t) := by
  show sub1F (t.length + 3) false (a :: b :: c :: t) = _
  rw [show t.length + 3 = (t.length + 2) + 1 from rfl, sub1F_step_false3]
  by_cases hb : (isUpAZ b && isLowAZ c) = true
  · rw [if_pos hb, if_pos hb]
    rw [sub1F_fuel (t.length + 2) (t.length + 1) true (c :: t) (by simp) (by simp)]
    rfl
  · rw [if_neg hb, if_neg hb]
    rfl

theorem sub2_nil : sub2 [] = [] := rfl

theorem sub2_one (a : Char) : sub2 [a] = [a] := rfl

theorem sub2_cons2 (a b : Char) (t : List Char) :
    sub2 (a :: b :: t) =
      if isLowDigit a && isUpAZ b then a :: '_' :: b :: sub2 t
      else a :: sub2 (b :: t) := rfl

/-! Scanning lemmas for `sub1`/`sub2` over segments. -/

/-- Whether a list starts with an uppercase letter followed by a lowercase
letter, i.e. whether a `(.)([A-Z][a-z]+)` match can begin one position
earlier. -/
def startsUL : List Char → Bool
  | b :: c :: _ => isUpAZ b && isLowAZ c
  | _ => false

def headNotLow : List Char → Bool
  | [] => true
  | c :: _ => !isLowAZ c

def headNotUp : List Char → Bool
  | [] => true
  | c :: _ => !isUpAZ c

theorem startsUL_cons_notup (a : Char) (l : List Char) (h : isUpAZ a = false) :
    startsUL (a :: l) = false := by
  cases l with
  | nil => rfl
  | cons c t => simp [startsUL, h]

theorem sub1_append_low (xs l : List Char) (hxs : xs.all isLowAZ = true)
    (hl : startsUL l = false) : sub1 (xs ++ l) = xs ++ sub1 l := by
  induction xs with
  | nil => simp
  | cons x xs ih =>
    simp only [List.all_cons, Bool.and_eq_true] at hxs
    cases xs with
    | nil =>
      simp only [List.nil_append, List.cons_append]
      cases l with
      | nil => simp [sub1_one, sub1_nil]
      | cons b t =>
        cases t with
        | nil => simp [sub1_two, sub1_one]
        | cons c w =>
          rw [sub1_cons3]
          simp only [startsUL] at hl
          rw [if_neg (by simp [hl])]
    | cons y xs' =>
      have hy : isLowAZ y = true := by
        simp only [List.all_cons, Bool.and_eq_true] at hxs
        exact hxs.2.1
      simp only [List.cons_append]
      cases hzw : xs' ++ l with
      | nil =>
        rcases List.append_eq_nil.mp hzw with ⟨h1, h2⟩
        subst h1
        subst h2
        simp [sub1_two, sub1_nil]
      | cons z w =>
        rw [sub1_cons3, if_neg (by simp [not_isUpAZ_of_isLowAZ y hy])]
        have hrw : y :: z :: w = (y :: xs') ++ l := by
          simp [hzw]
        rw [hrw, ih hxs.2]
        simp

theorem sub1_all_low (p : List Char) (hp : p.all isLowAZ = true) : sub1 p = p := by
  have := sub1_append_low p [] hp rfl
  simpa [sub1_nil] using this

theorem sub1t_append_low (r : List Char) (l : List Char) (hr : r.all isLowAZ = true)
    (hl : headNotLow l = true) : sub1t (r ++ l) = r ++ sub1 l := by
  induction r with
  | nil =>
    simp only [List.nil_append]
    cases l with
    | nil => rw [sub1t_nil, sub1_nil]
    | cons c t =>
      have hc : isLowAZ c = false := by
        simp only [headNotLow, Bool.not_eq_true'] at hl
        exact hl
      exact sub1t_cons_notlow c t hc
  | cons c r' ih =>
    simp only [List.all_cons, Bool.and_eq_true] at hr
    simp only [List.cons_append]
    rw [sub1t_cons_low c _ hr.1, ih hr.2]

theorem sub2_append_low (xs l : List Char) (hxs : xs.all isLowAZ = true)
    (hl : headNotUp l = true) : sub2 (xs ++ l) = xs ++ sub2 l := by
  induction xs with
  | nil => simp
  | cons x xs ih =>
    simp only [List.all_cons, Bool.and_eq_true] at hxs
    cases xs with
    | nil =>
      simp only [List.nil_append, List.cons_append]
      cases l with
      | nil => simp [sub2_one, sub2_nil]
      | cons b t =>
        rw [sub2_cons2]
        have hb : isUpAZ b = false := by
          simp only [headNotUp, Bool.not_eq_true'] at hl
          exact hl
        rw [if_neg (by simp [hb])]
    | cons y xs' =>
      have hy : isLowAZ y = true := by
        simp only [List.all_cons, Bool.and_eq_true] at hxs
        exact hxs.2.1
      simp only [List.cons_append]
      rw [sub2_cons2, if_neg (by simp [not_isUpAZ_of_isLowAZ y hy])]
      have := ih hxs.2
      simp only [List.cons_append] at this
      rw [this]

/-! The shape of `sub1` on a camel-cased word, block by block. -/

/-- Result of the first `camel_to_snake` substitution on `camelCat ts`,
scanning from a fresh position. -/
def s1fresh : List (List Char) → List Char
  | [] => []
  | [] :: ts => s1fresh ts
  | (c :: rh :: rt) :: [] => upChar c :: rh :: (rt ++ s1fresh [])
  | (c :: rh :: rt) :: [] :: ts2 => upChar c :: rh :: (rt ++ s1fresh ([] :: ts2))
  | (c :: rh :: rt) :: [c2] :: ts2 => upChar c :: rh :: (rt ++ s1fresh ([c2] :: ts2))
  | (c :: rh :: rt) :: (c2 :: rh2 :: rt2) :: ts2 =>
    upChar c :: rh :: (rt ++ ('_' :: upChar c2 :: rh2 :: (rt2 ++ s1fresh ts2)))
  | [c] :: [] => [upChar c]
  | [c] :: [] :: ts2 => upChar c :: s1fresh ([] :: ts2)
  | [c] :: [c2] :: ts2 => upChar c :: s1fresh ([c2] :: ts2)
  | [c] :: (c2 :: rh2 :: rt2) :: ts2 =>
    upChar c :: '_' :: upChar c2 :: rh2 :: (rt2 ++ s1fresh ts2)
termination_by ts => ts.length
decreasing_by all_goals (simp [List.length_cons]; try omega)

/-- Result of the first substitution on `p ++ camelCat ts` after the prefix
`p`: the scan sees a preceding lowercase character, so a multi-letter first
block is matched and gets its underscore from `sub1` itself. -/
def s1run : List (List Char) → List Char
  | (c :: rh :: rt) :: ts => '_' :: upChar c :: rh :: (rt ++ s1fresh ts)
  | ts => s1fresh ts

theorem s1fresh_nil : s1fresh [] = [] := by
  simp [s1fresh]

theorem s1run_nil : s1run [] = [] := by
  simp [s1run, s1fresh_nil]

theorem s1run_single (c : Char) (ts : List (List Char)) :
    s1run ([c] :: ts) = s1fresh ([c] :: ts) := rfl

theorem s1run_multi (c rh : Char) (rt : List Char) (ts : List (List Char)) :
    s1run ((c :: rh :: rt) :: ts) = '_' :: upChar c :: rh :: (rt ++ s1fresh ts) := rfl

theorem s1fresh_single_nil (c : Char) : s1fresh [[c]] = [upChar c] := by
  simp [s1fresh]

theorem s1fresh_single_single (c c2 : Char) (ts2 : List (List Char)) :
    s1fresh ([c] :: [c2] :: ts2) = upChar c :: s1fresh ([c2] :: ts2) := by
  simp [s1fresh]

theorem s1fresh_single_multi (c c2 rh2 : Char) (rt2 : List Char) (ts2 : List (List Char)) :
    s1fresh ([c] :: (c2 :: rh2 :: rt2) :: ts2) =
      upChar c :: '_' :: upChar c2 :: rh2 :: (rt2 ++ s1fresh ts2) := by
  simp [s1fresh]

theorem s1fresh_multi (c rh : Char) (rt : List Char) (ts : List (List Char)) :
    s1fresh ((c :: rh :: rt) :: ts) = upChar c :: rh :: (rt ++ s1run ts) := by
  cases ts with
  | nil => simp [s1fresh, s1run, s1fresh_nil]
  | cons t' ts' =>
    cases t' with
    | nil => simp [s1fresh, s1run]
    | cons c2 r2 =>
      cases r2 with
      | nil => simp [s1fresh, s1run]
      | cons rh2 rt2 => simp [s1fresh, s1run]

/-- Tokens are nonempty and all-lowercase. -/
def okToks (ts : List (List Char)) : Bool := ts.all (fun t => !t.isEmpty && t.all isLowAZ)

theorem camelCat_headNotLow (ts : List (List Char)) (h : okToks ts = true) :
    headNotLow (camelCat ts) = true := by
  cases ts with
  | nil => rfl
  | cons t ts' =>
    simp only [okToks, List.all_cons, Bool.and_eq_true] at h
    cases t with
    | nil => simp [List.isEmpty] at h
    | cons c r =>
      have hc : isLowAZ c = true := by
        have := h.1.2
        simp only [List.all_cons, Bool.and_eq_true] at this
        exact this.1
      simp only [camelCat, List.map_cons, List.flatten_cons, capTok, List.cons_append]
      simp [headNotLow, isLowAZ_upChar c hc]

theorem camelCat_nil_iff (ts : List (List Char)) (h : okToks ts = true) :
    camelCat ts = [] ↔ ts = [] := by
  cases ts with
  | nil => simp [camelCat]
  | cons t ts' =>
    simp only [okToks, List.all_cons, Bool.and_eq_true] at h
    cases t with
    | nil => simp [List.isEmpty] at h
    | cons c r => simp [camelCat, capTok]

theorem startsUL_upChar_cons (c : Char) (l : List Char) (hl : headNotLow l = true) :
    startsUL (upChar c :: l) = false := by
  cases l with
  | nil => rfl
  | cons z w =>
    simp only [headNotLow, Bool.not_eq_true'] at hl
    simp [startsUL, hl]

/-- Block-by-block characterisation of the first `camel_to_snake` substitution
on a camel-cased word: with no preceding text the description is `s1fresh`,
after a nonempty all-lowercase prefix it is `s1run`. -/
theorem s1_main : ∀ (n : Nat) (ts : List (List Char)), ts.length ≤ n → okToks ts = true →
    sub1 (camelCat ts) = s1fresh ts ∧
    (∀ p : List Char, p ≠ [] → p.all isLowAZ = true →
      sub1 (p ++ camelCat ts) = p ++ s1run ts) := by
  intro n
  induction n with
  | zero =>
    intro ts hlen _
    have hts : ts = [] := List.length_eq_zero.mp (Nat.le_zero.mp hlen)
    subst hts
    refine ⟨by simp [camelCat, s1fresh_nil, sub1_nil], ?_⟩
    intro p _ hlow
    simp only [camelCat, List.map_nil, List.flatten_nil, List.append_nil, s1run_nil]
    exact sub1_all_low p hlow
  | succ n ih =>
    intro ts hlen hok
    have hfresh : sub1 (camelCat ts) = s1fresh ts := by
      cases ts with
      | nil => simp [camelCat, s1fresh_nil, sub1_nil]
      | cons t ts' =>
        simp only [okToks, List.all_cons, Bool.and_eq_true] at hok
        have hok' : okToks ts' = true := hok.2
        cases t with
        | nil => simp [List.isEmpty] at hok
        | cons c r =>
          have hcall : (c :: r).all isLowAZ = true := hok.1.2
          simp only [List.all_cons, Bool.and_eq_true] at hcall
          have hc : isLowAZ c = true := hcall.1
          have hlen' : ts'.length ≤ n := by
            simp only [List.length_cons, Nat.succ_le_succ_iff] at hlen
            exact hlen
          cases r with
          | nil =>
            cases ts' with
            | nil =>
              show sub1 (camelCat [[c]]) = s1fresh [[c]]
              simp [camelCat, capTok, sub1_one, s1fresh_single_nil]
            | cons t2 ts2 =>
              simp only [okToks, List.all_cons, Bool.and_eq_true] at hok'
              have hok2 : okToks ts2 = true := hok'.2
              cases t2 with
              | nil => simp [List.isEmpty] at hok'
              | cons c2 r2 =>
                have hcall2 : (c2 :: r2).all isLowAZ = true := hok'.1.2
                simp only [List.all_cons, Bool.and_eq_true] at hcall2
                have hc2 : isLowAZ c2 = true := hcall2.1
                have hlen2 : ts2.length ≤ n := by
                  simp only [List.length_cons] at hlen'
                  omega
                cases r2 with
                | nil =>
                  have hcc : camelCat ([c] :: [c2] :: ts2) =
                      upChar c :: upChar c2 :: camelCat ts2 := by
                    simp [camelCat, capTok]
                  rw [hcc]
                  cases hcam : camelCat ts2 with
                  | nil =>
                    have hts2 : ts2 = [] := (camelCat_nil_iff ts2 hok2).mp hcam
                    subst hts2
                    simp [sub1_two, s1fresh_single_single, s1fresh_single_nil]
                  | cons z w =>
                    have hz : isLowAZ z = false := by
                      have := camelCat_headNotLow ts2 hok2
                      rw [hcam] at this
                      simpa [headNotLow, Bool.not_eq_true'] using this
                    rw [sub1_cons3, if_neg (by simp [hz])]
                    have hcc2 : camelCat ([c2] :: ts2) = upChar c2 :: camelCat ts2 := by
                      simp [camelCat, capTok]
                    have hback : camelCat ([c2] :: ts2) = upChar c2 :: z :: w := by
                      rw [hcc2, hcam]
                    rw [← hback]
                    rw [(ih ([c2] :: ts2) (by simpa using hlen') (by
                      simp only [okToks, List.all_cons, Bool.and_eq_true]
                      exact ⟨⟨by simp [List.isEmpty], by simp [hc2]⟩, hok2⟩)).1]
                    rw [s1fresh_single_single]
                | cons rh2 rt2 =>
                  have hr2 : (rh2 :: rt2).all isLowAZ = true := hcall2.2
                  have hrh2 : isLowAZ rh2 = true := by
                    simp only [List.all_cons, Bool.and_eq_true] at hr2
                    exact hr2.1
                  have hcc : camelCat ([c] :: (c2 :: rh2 :: rt2) :: ts2) =
                      upChar c :: upChar c2 :: rh2 :: (rt2 ++ camelCat ts2) := by
                    simp [camelCat, capTok]
                  rw [hcc]
                  rw [sub1_cons3, if_pos (by simp [isUpAZ_upChar c2 hc2, hrh2])]
                  have hsplit : rh2 :: (rt2 ++ camelCat ts2) =
                      (rh2 :: rt2) ++ camelCat ts2 := by simp
                  rw [hsplit, sub1t_append_low (rh2 :: rt2) (camelCat ts2) hr2
                    (camelCat_headNotLow ts2 hok2)]
                  rw [(ih ts2 hlen2 hok2).1, s1fresh_single_multi]
                  simp
          | cons rh rt =>
            have hr : (rh :: rt).all isLowAZ = true := hcall.2
            have hrh : isLowAZ rh = true := by
              simp only [List.all_cons, Bool.and_eq_true] at hr
              exact hr.1
            have hcc : camelCat ((c :: rh :: rt) :: ts') =
                upChar c :: rh :: (rt ++ camelCat ts') := by
              simp [camelCat, capTok]
            rw [hcc]
            cases hzw : rt ++ camelCat ts' with
            | nil =>
              rcases List.append_eq_nil.mp hzw with ⟨hrt, hcm⟩
              have hts' : ts' = [] := (camelCat_nil_iff ts' hok').mp hcm
              subst hrt
              subst hts'
              simp [sub1_two, s1fresh_multi, s1run_nil]
            | cons z w =>
              rw [sub1_cons3, if_neg (by simp [not_isUpAZ_of_isLowAZ rh hrh])]
              have hback : rh :: z :: w = (rh :: rt) ++ camelCat ts' := by
                simp [hzw]
              rw [hback]
              rw [(ih ts' hlen' hok').2 (rh :: rt) (by simp) hr]
              rw [s1fresh_multi]
              simp
    refine ⟨hfresh, ?_⟩
    intro p hp hlow
    cases ts with
    | nil =>
      simp only [camelCat, List.map_nil, List.flatten_nil, List.append_nil, s1run_nil]
      exact sub1_all_low p hlow
    | cons t ts' =>
      simp only [okToks, List.all_cons, Bool.and_eq_true] at hok
      have hok' : okToks ts' = true := hok.2
      cases t with
      | nil => simp [List.isEmpty] at hok
      | cons c r =>
        have hcall : (c :: r).all isLowAZ = true := hok.1.2
        simp only [List.all_cons, Bool.and_eq_true] at hcall
        have hc : isLowAZ c = true := hcall.1
        have hlen' : ts'.length ≤ n := by
          simp only [List.length_cons, Nat.succ_le_succ_iff] at hlen
          exact hlen
        cases r with
        | nil =>
          have hcc : camelCat ([c] :: ts') = upChar c :: camelCat ts' := by
            simp [camelCat, capTok]
          rw [hcc, sub1_append_low p _ hlow
            (startsUL_upChar_cons c _ (camelCat_headNotLow ts' hok'))]
          rw [← hcc, hfresh, s1run_single]
        | cons rh rt =>
          rcases List.eq_nil_or_concat p with rfl | ⟨u, a, rfl⟩
          · exact absurd rfl hp
          · simp only [List.concat_eq_append] at hlow ⊢
            have hua : u.all isLowAZ = true ∧ isLowAZ a = true := by
              simp only [List.all_append, List.all_cons, List.all_nil,
                Bool.and_eq_true, Bool.and_true] at hlow
              exact hlow
            have hu : u.all isLowAZ = true := hua.1
            have ha : isLowAZ a = true := hua.2
            have hr : (rh :: rt).all isLowAZ = true := hcall.2
            have hrh : isLowAZ rh = true := by
              simp only [List.all_cons, Bool.and_eq_true] at hr
              exact hr.1
            have hcc : camelCat ((c :: rh :: rt) :: ts') =
                upChar c :: rh :: (rt ++ camelCat ts') := by
              simp [camelCat, capTok]
            rw [hcc, List.append_assoc]
            rw [show [a] ++ upChar c :: rh :: (rt ++ camelCat ts') =
                a :: upChar c :: rh :: (rt ++ camelCat ts') from rfl]
            rw [sub1_append_low u _ hu
              (startsUL_cons_notup a _ (not_isUpAZ_of_isLowAZ a ha))]
            rw [sub1_cons3, if_pos (by simp [isUpAZ_upChar c hc, hrh])]
            have hsplit : rh :: (rt ++ camelCat ts') = (rh :: rt) ++ camelCat ts' := by
              simp
            rw [hsplit, sub1t_append_low (rh :: rt) (camelCat ts') hr
              (camelCat_headNotLow ts' hok')]
            rw [(ih ts' hlen' hok').1, s1run_multi]
            simp

/-! The second substitution restores the underscores that the first one could
not place, yielding one underscore before every non-initial component. -/

/-- No two adjacent single-letter components. -/
def noAdjSingles : List (List Char) → Bool
  | t :: t' :: ts => !(t.length == 1 && t'.length == 1) && noAdjSingles (t' :: ts)
  | _ => true

theorem noAdjSingles_tail (t : List Char) (ts : List (List Char))
    (h : noAdjSingles (t :: ts) = true) : noAdjSingles ts = true := by
  cases ts with
  | nil => rfl
  | cons t' ts' =>
    simp only [noAdjSingles, Bool.and_eq_true] at h
    exact h.2

def s2out (ts : List (List Char)) : List Char := (ts.map (fun t => '_' :: capTok t)).flatten

theorem s2out_nil : s2out [] = [] := rfl

theorem s2out_cons (t : List Char) (ts : List (List Char)) :
    s2out (t :: ts) = '_' :: (capTok t ++ s2out ts) := rfl

theorem sub2_all_low (p : List Char) (hp : p.all isLowAZ = true) : sub2 p = p := by
  have := sub2_append_low p [] hp rfl
  simpa [sub2_nil] using this

theorem isLowDigit_of_isLowAZ (c : Char) (h : isLowAZ c = true) : isLowDigit c = true := by
  simp [isLowDigit, h]

theorem s2_main : ∀ (n : Nat) (ts : List (List Char)), ts.length ≤ n → okToks ts = true →
    noAdjSingles ts = true → ∀ p : List Char, p ≠ [] → p.all isLowAZ = true →
    sub2 (p ++ s1fresh ts) = p ++ s2out ts ∧ sub2 (p ++ s1run ts) = p ++ s2out ts := by
  intro n
  induction n with
  | zero =>
    intro ts hlen _ _ p _ hlow
    have hts : ts = [] := List.length_eq_zero.mp (Nat.le_zero.mp hlen)
    subst hts
    constructor <;>
      simp only [s1fresh_nil, s1run_nil, s2out_nil, List.append_nil] <;>
      exact sub2_all_low p hlow
  | succ n ih =>
    intro ts hlen hok hadj p hp hlow
    have hF : sub2 (p ++ s1fresh ts) = p ++ s2out ts := by
      cases ts with
      | nil =>
        simp only [s1fresh_nil, s2out_nil, List.append_nil]
        exact sub2_all_low p hlow
      | cons t ts' =>
        simp only [okToks, List.all_cons, Bool.and_eq_true] at hok
        have hok' : okToks ts' = true := hok.2
        have hadj' : noAdjSingles ts' = true := noAdjSingles_tail t ts' hadj
        cases t with
        | nil => simp [List.isEmpty] at hok
        | cons c r =>
          have hcall : (c :: r).all isLowAZ = true := hok.1.2
          simp only [List.all_cons, Bool.and_eq_true] at hcall
          have hc : isLowAZ c = true := hcall.1
          have hlen' : ts'.length ≤ n := by
            simp only [List.length_cons, Nat.succ_le_succ_iff] at hlen
            exact hlen
          rcases List.eq_nil_or_concat p with rfl | ⟨u, a, rfl⟩
          · exact absurd rfl hp
          · simp only [List.concat_eq_append] at hlow ⊢
            have hua : u.all isLowAZ = true ∧ isLowAZ a = true := by
              simp only [List.all_append, List.all_cons, List.all_nil,
                Bool.and_eq_true, Bool.and_true] at hlow
              exact hlow
            have hu : u.all isLowAZ = true := hua.1
            have ha : isLowAZ a = true := hua.2
            cases r with
            | cons rh rt =>
              have hr : (rh :: rt).all isLowAZ = true := hcall.2
              have hrh : isLowAZ rh = true := by
                simp only [List.all_cons, Bool.and_eq_true] at hr
                exact hr.1
              rw [s1fresh_multi, List.append_assoc]
              rw [show [a] ++ upChar c :: rh :: (rt ++ s1run ts') =
                  a :: upChar c :: rh :: (rt ++ s1run ts') from rfl]
              rw [sub2_append_low u _ hu (by simp [headNotUp, not_isUpAZ_of_isLowAZ a ha])]
              rw [sub2_cons2, if_pos (by
                simp [isLowDigit_of_isLowAZ a ha, isUpAZ_upChar c hc])]
              rw [show rh :: (rt ++ s1run ts') = (rh :: rt) ++ s1run ts' from by simp]
              rw [(ih ts' hlen' hok' hadj' (rh :: rt) (by simp) hr).2]
              simp [s2out_cons, capTok]
            | nil =>
              cases ts' with
              | nil =>
                rw [s1fresh_single_nil, List.append_assoc]
                rw [show [a] ++ [upChar c] = a :: upChar c :: [] from rfl]
                rw [sub2_append_low u _ hu (by simp [headNotUp, not_isUpAZ_of_isLowAZ a ha])]
                rw [sub2_cons2, if_pos (by
                  simp [isLowDigit_of_isLowAZ a ha, isUpAZ_upChar c hc])]
                simp [sub2_nil, s2out_cons, s2out_nil, capTok]
              | cons t2 ts2 =>
                simp only [okToks, List.all_cons, Bool.and_eq_true] at hok'
                have hok2 : okToks ts2 = true := hok'.2
                cases t2 with
                | nil => simp [List.isEmpty] at hok'
                | cons c2 r2 =>
                  have hcall2 : (c2 :: r2).all isLowAZ = true := hok'.1.2
                  simp only [List.all_cons, Bool.and_eq_true] at hcall2
                  have hc2 : isLowAZ c2 = true := hcall2.1
                  cases r2 with
                  | nil =>
                    simp [noAdjSingles] at hadj
                  | cons rh2 rt2 =>
                    have hr2 : (rh2 :: rt2).all isLowAZ = true := hcall2.2
                    have hrh2 : isLowAZ rh2 = true := by
                      simp only [List.all_cons, Bool.and_eq_true] at hr2
                      exact hr2.1
                    have hadj2 : noAdjSingles ts2 = true :=
                      noAdjSingles_tail _ _ hadj'
                    have hlen2 : ts2.length ≤ n := by
                      simp only [List.length_cons] at hlen'
                      omega
                    rw [s1fresh_single_multi, List.append_assoc]
                    rw [show [a] ++ upChar c :: '_' :: upChar c2 :: rh2 :: (rt2 ++ s1fresh ts2) =
                        a :: upChar c :: '_' :: upChar c2 :: rh2 :: (rt2 ++ s1fresh ts2)
                      from rfl]
                    rw [sub2_append_low u _ hu
                      (by simp [headNotUp, not_isUpAZ_of_isLowAZ a ha])]
                    rw [sub2_cons2, if_pos (by
                      simp [isLowDigit_of_isLowAZ a ha, isUpAZ_upChar c hc])]
                    rw [sub2_cons2, if_neg (by simp [isLowDigit, isLowAZ])]
                    rw [sub2_cons2, if_neg (by simp [isLowDigit_upChar c2 hc2])]
                    rw [show rh2 :: (rt2 ++ s1fresh ts2) = (rh2 :: rt2) ++ s1fresh ts2
                      from by simp]
                    rw [(ih ts2 hlen2 hok2 hadj2 (rh2 :: rt2) (by simp) hr2).1]
                    simp [s2out_cons, capTok]
    refine ⟨hF, ?_⟩
    cases ts with
    | nil =>
      simp only [s1run_nil, s2out_nil, List.append_nil]
      exact sub2_all_low p hlow
    | cons t ts' =>
      simp only [okToks, List.all_cons, Bool.and_eq_true] at hok
      have hok' : okToks ts' = true := hok.2
      have hadj' : noAdjSingles ts' = true := noAdjSingles_tail t ts' hadj
      cases t with
      | nil => simp [List.isEmpty] at hok
      | cons c r =>
        have hcall : (c :: r).all isLowAZ = true := hok.1.2
        simp only [List.all_cons, Bool.and_eq_true] at hcall
        have hc : isLowAZ c = true := hcall.1
        have hlen' : ts'.length ≤ n := by
          simp only [List.length_cons, Nat.succ_le_succ_iff] at hlen
          exact hlen
        cases r with
        | nil => rw [s1run_single]; exact hF
        | cons rh rt =>
          have hr : (rh :: rt).all isLowAZ = true := hcall.2
          rw [s1run_multi]
          rw [sub2_append_low p _ hlow (by simp [headNotUp, isUpAZ])]
          rw [sub2_cons2, if_neg (by simp [isLowDigit, isLowAZ])]
          rw [sub2_cons2, if_neg (by simp [isLowDigit_upChar c hc])]
          rw [show rh :: (rt ++ s1fresh ts') = (rh :: rt) ++ s1fresh ts' from by simp]
          rw [(ih ts' hlen' hok' hadj' (rh :: rt) (by simp) hr).1]
          simp [s2out_cons, capTok]

/-! Assembling the two passes into statements about the exported codecs. -/

theorem map_lowChar_fix (t : List Char) (h : t.all isLowAZ = true) : t.map lowChar = t := by
  induction t with
  | nil => rfl
  | cons c r ih =>
    simp only [List.all_cons, Bool.and_eq_true] at h
    simp [lowChar_fix c h.1, ih h.2]

theorem pyTitleGo_low_true (r : List Char) (h : r.all isLowAZ = true) :
    pyTitleGo r true = r := by
  induction r with
  | nil => rfl
  | cons c t ih =>
    simp only [List.all_cons, Bool.and_eq_true] at h
    simp [pyTitleGo, h.1, lowChar_fix c h.1, ih h.2]

theorem pyTitle_all_low (c : Char) (r : List Char) (hc : isLowAZ c = true)
    (hr : r.all isLowAZ = true) : pyTitle (c :: r) = capTok (c :: r) := by
  simp [pyTitle, pyTitleGo, capTok, hc, pyTitleGo_low_true r hr]

/-- Normal form of `snake_to_camel` on a joined list of nonempty lowercase
components: the head is kept, acronym components are upper-cased, the others
are capitalised. -/
theorem snake_to_camel_norm (t0 : List Char) (rest : List (List Char))
    (hok : okToks (t0 :: rest) = true) :
    snake_to_camel (joinWithChar '_' (t0 :: rest)) =
      t0 ++ (rest.map (fun t =>
        if t ∈ acronyms then t.map upChar else capTok t)).flatten := by
  have hfree : ∀ u ∈ t0 :: rest, '_' ∉ u := by
    intro u hu hmem
    simp only [okToks, List.all_eq_true, Bool.and_eq_true] at hok
    have := (hok u hu).2
    simp only [List.all_eq_true] at this
    exact absurd rfl (ne_underscore_of_isLowAZ '_' (this '_' hmem))
  unfold snake_to_camel
  rw [splitOnChar_joinWithChar '_' t0 rest hfree]
  show t0 ++ (rest.map (fun comp =>
      if comp.map lowChar ∈ acronyms then comp.map upChar else pyTitle comp)).flatten = _
  congr 1
  congr 1
  apply List.map_congr_left
  intro t ht
  simp only [okToks, List.all_eq_true, Bool.and_eq_true] at hok
  have hts := hok t (by simp [ht])
  have htl : t.all isLowAZ = true := by
    simp only [List.all_eq_true]
    exact hts.2
  rw [map_lowChar_fix t htl]
  by_cases hmem : t ∈ acronyms
  · simp [hmem]
  · rw [if_neg hmem, if_neg hmem]
    cases t with
    | nil => simp [List.isEmpty] at hts
    | cons c r =>
      simp only [List.all_cons, Bool.and_eq_true] at htl
      exact pyTitle_all_low c r htl.1 htl.2

theorem map_lowChar_s2out (ts : List (List Char)) (hok : okToks ts = true) :
    (s2out ts).map lowChar = (ts.map (fun t => '_' :: t)).flatten := by
  induction ts with
  | nil => rfl
  | cons t ts' ih =>
    simp only [okToks, List.all_cons, Bool.and_eq_true] at hok
    cases t with
    | nil => simp [List.isEmpty] at hok
    | cons c r =>
      have hcall : (c :: r).all isLowAZ = true := hok.1.2
      simp only [List.all_cons, Bool.and_eq_true] at hcall
      simp only [s2out_cons, List.map_cons, List.map_append, capTok, List.flatten_cons]
      rw [lowChar_upChar c hcall.1, map_lowChar_fix r hcall.2]
      have : lowChar '_' = '_' := by decide
      simp [this, ih hok.2]

theorem joinWithChar_eq_flat (t0 : List Char) (ts : List (List Char)) :
    joinWithChar '_' (t0 :: ts) = t0 ++ (ts.map (fun t => '_' :: t)).flatten := by
  induction ts generalizing t0 with
  | nil => simp [joinWithChar]
  | cons u us ih =>
    have : joinWithChar '_' (t0 :: u :: us) = t0 ++ '_' :: joinWithChar '_' (u :: us) := rfl
    rw [this, ih u]
    simp

/-- Core of the round-trip: `camel_to_snake` inverts the camel-casing of
nonempty all-lowercase components, provided no two adjacent non-initial
components are single letters. -/
theorem camel_to_snake_camelCat (t0 : List Char) (rest : List (List Char))
    (h0 : t0 ≠ []) (h0low : t0.all isLowAZ = true) (hok : okToks rest = true)
    (hadj : noAdjSingles rest = true) :
    camel_to_snake (t0 ++ camelCat rest) = joinWithChar '_' (t0 :: rest) := by
  unfold camel_to_snake
  rw [(s1_main rest.length rest le_rfl hok).2 t0 h0 h0low]
  rw [(s2_main rest.length rest le_rfl hok hadj t0 h0 h0low).2]
  rw [List.map_append, map_lowChar_fix t0 h0low, map_lowChar_s2out rest hok]
  rw [joinWithChar_eq_flat]

/-! ## Claims C6, C7, C8: identifier and naming codecs -/

/-- C6: For every chain string containing no hyphen and every network string,
parsing the composed network id `"{chain}-{network}"` on the first hyphen
yields back exactly `(chain, network)`; and parsing fails (`MalformedIdentifier`
/ `ValueError`) for every string containing no hyphen. -/
theorem c6_network_id_codec :
    (∀ chain network : List Char, '-' ∉ chain →
      parse_network_id (composeNetworkId chain network) = .ok (chain, network)) ∧
    (∀ s : List Char, '-' ∉ s → ∃ msg, parse_network_id s = .error msg) := by
  constructor
  · intro chain network h
    simp [parse_network_id, composeNetworkId, splitFirstHyphen_compose chain network h]
  · intro s h
    unfold parse_network_id
    rw [splitFirstHyphen_no_hyphen s h]
    exact ⟨_, rfl⟩

/-- Witness for C6 at `chain = "solana"`, `network = "mainnet-beta"` (the
network part itself contains a hyphen, showing the split is on the first
hyphen only), and at the hyphen-free string `"solana"`. -/
theorem c6_network_id_codec_witness :
    ('-' ∉ "solana".data ∧
      parse_network_id (composeNetworkId "solana".data "mainnet-beta".data) =
        .ok ("solana".data, "mainnet-beta".data)) ∧
    ∃ msg, parse_network_id "solana".data = .error msg :=
  ⟨⟨by decide, c6_network_id_codec.1 "solana".data "mainnet-beta".data (by decide)⟩,
    c6_network_id_codec.2 "solana".data (by decide)⟩

/-- C7: `snake_to_camel` converts a lower-case underscore-separated name to the
gateway's mixed-case convention: the initial component is kept, every other
component in the fixed acronym table `{url, cu, id, api, rpc, uri}` is fully
upper-cased, and every other non-initial component is title-cased; in
particular `node_url ↦ nodeURL` and `lower_bin_id ↦ lowerBinID`. -/
theorem c7_snake_to_camel_spec :
    (∀ (t0 : List Char) (rest : List (List Char)), okToks (t0 :: rest) = true →
      snake_to_camel (joinWithChar '_' (t0 :: rest)) =
        t0 ++ (rest.map (fun t =>
          if t ∈ acronyms then t.map upChar else capTok t)).flatten) ∧
    snake_to_camel "node_url".data = "nodeURL".data ∧
    snake_to_camel "lower_bin_id".data = "lowerBinID".data :=
  ⟨fun t0 rest hok => snake_to_camel_norm t0 rest hok, by decide, by decide⟩

/-- Witness for C7 at the name `cap_rpc_fee` (`= "cap" ++ ["rpc", "fee"]`),
whose middle component is an acronym and whose last is not. -/
theorem c7_snake_to_camel_spec_witness :
    okToks ["cap".data, "rpc".data, "fee".data] = true ∧
    snake_to_camel (joinWithChar '_' ["cap".data, "rpc".data, "fee".data]) =
      "cap".data ++ (["rpc".data, "fee".data].map (fun t =>
        if t ∈ acronyms then t.map upChar else capTok t)).flatten :=
  ⟨by decide, c7_snake_to_camel_spec.1 "cap".data ["rpc".data, "fee".data] (by decide)⟩

/-- C8 fails as stated: the snake_case name `a_b_c` collides with no acronym
exception, yet the round trip `camel_to_snake (snake_to_camel "a_b_c")`
returns `a_bc`, not `a_b_c` (two consecutive single-letter components lose
their separating underscore). -/
theorem c8_roundtrip_counterexample :
    camel_to_snake (snake_to_camel "a_b_c".data) = "a_bc".data ∧
    "a_bc".data ≠ "a_b_c".data := by
  constructor
  · decide
  · decide

/-- C8 (amended): for every snake_case name whose underscore-separated
components are nonempty all-lowercase-letter strings, none of which collides
with an acronym exception, and in which no two consecutive non-initial
components are both single letters, the round trip
`camel_to_snake (snake_to_camel x)` returns `x` unchanged. -/
theorem c8_roundtrip_amended (t0 : List Char) (rest : List (List Char))
    (hok : okToks (t0 :: rest) = true)
    (hacr : ∀ t ∈ t0 :: rest, t ∉ acronyms)
    (hadj : noAdjSingles rest = true) :
    camel_to_snake (snake_to_camel (joinWithChar '_' (t0 :: rest))) =
      joinWithChar '_' (t0 :: rest) := by
  rw [snake_to_camel_norm t0 rest hok]
  have hmap : rest.map (fun t => if t ∈ acronyms then t.map upChar else capTok t) =
      rest.map capTok :=
    List.map_congr_left (fun t ht => if_neg (hacr t (by simp [ht])))
  rw [hmap]
  show camel_to_snake (t0 ++ camelCat rest) = _
  simp only [okToks, List.all_cons, Bool.and_eq_true] at hok
  have h0 : t0 ≠ [] := by
    intro he
    subst he
    simp [List.isEmpty] at hok
  exact camel_to_snake_camelCat t0 rest h0 hok.1.2 hok.2 hadj

/-- Witness for the amended C8 at `lower_bin_step` (multi-letter components)
and at `a_b_cd` (a single-letter component not followed by another single). -/
theorem c8_roundtrip_amended_witness :
    (okToks ["lower".data, "bin".data, "step".data] = true ∧
      camel_to_snake (snake_to_camel (joinWithChar '_'
        ["lower".data, "bin".data, "step".data])) =
        joinWithChar '_' ["lower".data, "bin".data, "step".data]) ∧
    camel_to_snake (snake_to_camel (joinWithChar '_' ["a".data, "b".data, "cd".data])) =
      joinWithChar '_' ["a".data, "b".data, "cd".data] :=
  ⟨⟨by decide, c8_roundtrip_amended "lower".data ["bin".data, "step".data]
      (by decide) (by decide) (by decide)⟩,
    c8_roundtrip_amended "a".data ["b".data, "cd".data]
      (by decide) (by decide) (by decide)⟩

/-! ## The request pipeline (src/routers/gateway_trading.py,
src/services/gateway_client.py) -/

/-- Python truthiness filter for an optional string: `None` and `""` are
falsy. -/
def truthyStr : Option String → Option String
  | some s => if s = "" then none else some s
  | none => none

/-- Python truthiness: `"x if v else 0"` applied to an optional number read
from an upstream response (absent or zero collapses to zero). -/
def qTruthy : Option ℚ → ℚ
  | some v => if v = 0 then 0 else v
  | none => 0

/-- Python pattern `Decimal(str(v)) if v else None` for an optional number. -/
def optQTruthy : Option ℚ → Option ℚ
  | some v => if v = 0 then none else some v
  | none => none

/-- Python pattern `some_value if some_value else None` for a plain number. -/
def qOptIfTruthy (v : ℚ) : Option ℚ := if v = 0 then none else some v

/-- Python `a or b` on optional integers (`0` and `None` are falsy in `a`). -/
def pyOrInt (a b : Option Int) : Option Int :=
  match a with
  | some v => if v = 0 then b else some v
  | none => b

/-- Python `a or dflt` on an optional number (`request.slippage_pct or 1.0`). -/
def qOrDefault (a : Option ℚ) (dflt : ℚ) : ℚ :=
  match a with
  | some v => if v = 0 then dflt else v
  | none => dflt

/-- One entry of the upstream `GET /wallet` response. -/
structure WalletEntry where
  chain : Option String
  walletAddresses : List String
deriving DecidableEq, Repr

/-- One entry of the upstream `GET /pools` response (both naming schemes). -/
structure PoolEntry where
  baseSymbol : Option String
  quoteSymbol : Option String
  base : Option String
  quote : Option String
  address : Option String
deriving DecidableEq, Repr

/-- Upstream response of a mutating call: any spelling of the transaction
hash and position address may be present, plus a status field that the
adapter never reads. -/
structure TxResp where
  signature : Option String
  txHash : Option String
  hash : Option String
  positionAddress : Option String
  position : Option String
  status : Option String
deriving DecidableEq, Repr

/-- Upstream CLMM position object. -/
structure PositionRaw where
  address : Option String
  poolAddress : Option String
  baseToken : Option String
  quoteToken : Option String
  baseTokenAmount : Option ℚ
  quoteTokenAmount : Option ℚ
  price : Option ℚ
  lowerPrice : Option ℚ
  upperPrice : Option ℚ
  baseFeeAmount : Option ℚ
  quoteFeeAmount : Option ℚ
  lowerBinId : Option Int
  upperBinId : Option Int
deriving DecidableEq, Repr

/-- Upstream `clmm/liquidity/positions` response: either a raw list or an
object with a `positions` key. -/
inductive PositionsRaw where
  | asList (items : List PositionRaw)
  | asObj (positions : Option (List PositionRaw))
deriving DecidableEq, Repr

/-- Upstream pool-detail response (`POST /clmm/liquidity/pool`). -/
structure PoolDetailRaw where
  price : Option ℚ
  baseTokenAmount : Option ℚ
  quoteTokenAmount : Option ℚ
  feePct : Option ℚ
  binStep : Option Int
  binStepSnake : Option Int
  activeBinId : Option Int
  activeBinIdSnake : Option Int
deriving DecidableEq, Repr

/-- Upstream router quote response. -/
structure QuoteRaw where
  price : Option ℚ
  expectedAmount : Option ℚ
  gasEstimate : Option ℚ
deriving DecidableEq, Repr

/-- The downstream endpoints a handler can hit (the liveness `ping` is the
precondition check, not a downstream call). -/
inductive GwCall where
  | getWallets
  | getPools
  | poolDetail
  | quoteSwap
  | executeSwap
  | clmmOpen
  | clmmAdd
  | clmmRemove
  | clmmClose
  | clmmCollect
  | positionLookup
  | positionsList
deriving DecidableEq, Repr

instance instDecEqExcept {e a : Type} [DecidableEq e] [DecidableEq a] :
    DecidableEq (Except e a)
  | .ok x, .ok y => if h : x = y then .isTrue (by rw [h]) else .isFalse (by simp [h])
  | .ok _, .error _ => .isFalse (by simp)
  | .error _, .ok _ => .isFalse (by simp)
  | .error x, .error y => if h : x = y then .isTrue (by rw [h]) else .isFalse (by simp [h])

/-- The world the adapter talks to: liveness plus the canned response of every
endpoint (`Except.error` models a transport failure carrying its message). -/
structure Gateway where
  pingOk : Bool
  walletsResp : Except String (List WalletEntry)
  poolsResp : Except String (List PoolEntry)
  poolDetailResp : Except String PoolDetailRaw
  quoteResp : Except String QuoteRaw
  swapResp : Except String TxResp
  openResp : Except String TxResp
  addResp : Except String TxResp
  removeResp : Except String TxResp
  closeResp : Except String TxResp
  collectResp : Except String TxResp
  positionResp : Except String PositionRaw
  positionsResp : Except String PositionsRaw
deriving DecidableEq, Repr

/-- A Python exception in flight inside a handler body. -/
inductive PyErr where
  | http (status : Nat) (detail : String)
  | valueError (msg : String)
  | exc (msg : String)
deriving DecidableEq, Repr

/-- The HTTP error a handler ultimately returns. -/
structure HttpErr where
  status : Nat
  detail : String
deriving DecidableEq, Repr

/-- A handler computation: threads the trace of issued downstream calls. -/
def GwM (α : Type) := List GwCall → Except PyErr α × List GwCall

def pureGw {α : Type} (a : α) : GwM α := fun t => (.ok a, t)

def andThen {α β : Type} (x : GwM α) (f : α → GwM β) : GwM β := fun t =>
  match x t with
  | (.ok a, t2) => f a t2
  | (.error e, t2) => (.error e, t2)

def throwHttp {α : Type} (status : Nat) (detail : String) : GwM α :=
  fun t => (.error (.http status detail), t)

/-- Lift a fallible pure step that raises `ValueError` on failure. -/
def ofValueErr {α : Type} (e : Except String α) : GwM α := fun t =>
  (match e with
   | .ok a => .ok a
   | .error m => .error (.valueError m), t)

/-- Issue one downstream call: the call is recorded in the trace; a transport
failure surfaces as a raised exception. -/
def gwCall {α : Type} (c : GwCall) (resp : Except String α) : GwM α := fun t =>
  ((match resp with
    | .ok a => .ok a
    | .error m => .error (.exc m)), t ++ [c])

/-- The shared liveness precondition: `if not await ping(): raise 503`. -/
def pingGuard (gw : Gateway) : GwM Unit := fun t =>
  ((if gw.pingOk then .ok () else .error (.http 503 "Gateway service is not available")), t)

/-- The `try/except` wrapper shared by every handler: `HTTPException` passes
through, `ValueError` becomes a 400, anything else becomes a 500 whose detail
is the handler-specific context string followed by the exception message. -/
def runHandler {α : Type} (errCtx : String) (m : GwM α) : Except HttpErr α × List GwCall :=
  match m [] with
  | (.ok a, t) => (.ok a, t)
  | (.error (.http s d), t) => (.error ⟨s, d⟩, t)
  | (.error (.valueError msg), t) => (.error ⟨400, msg⟩, t)
  | (.error (.exc msg), t) => (.error ⟨500, errCtx ++ msg⟩, t)

/-- `parse_network_id` over `String`, as the handlers consume it. -/
def parseNetworkIdStr (networkId : String) : Except String (String × String) :=
  match parse_network_id networkId.data with
  | .ok p => .ok (String.mk p.1, String.mk p.2)
  | .error m => .error (String.mk m)

/-- `base, quote = trading_pair.split("-")`: tuple unpacking raises
`ValueError` unless the split yields exactly two parts. -/
def unpackPair (s : String) : Except String (String × String) :=
  match (splitOnChar '-' s.data).map String.mk with
  | [b, q] => .ok (b, q)
  | parts =>
    .error (if parts.length < 2
      then "not enough values to unpack (expected 2, got 1)"
      else "too many values to unpack (expected 2)")

/-- The pure part of `GatewayClient.get_default_wallet_address`
(src/services/gateway_client.py lines 61-72): scan the wallet listing for the
first entry of the chain and take its first address; ANY exception — including
a transport failure of the wallet listing — is caught and turned into
`none`. -/
def defaultWalletOf (gw : Gateway) (chain : String) : Option String :=
  match gw.walletsResp with
  | .error _ => none
  | .ok ws =>
    match ws.find? (fun w => w.chain == some chain) with
    | some w => w.walletAddresses.head?
    | none => none

/-- Embedding of `GatewayClient.get_default_wallet_address`
(src/services/gateway_client.py lines 61-72) as a handler step: the wallet
listing is issued and recorded, and `defaultWalletOf` describes the caught
result. -/
def get_default_wallet_address (gw : Gateway) (chain : String) : GwM (Option String) :=
  fun t => (.ok (defaultWalletOf gw chain), t ++ [GwCall.getWallets])

/-- Embedding of the `get_wallet_address` helper
(src/routers/gateway_trading.py lines 55-68). -/
def get_wallet_address (gw : Gateway) (networkId : String) (walletAddress : Option String) :
    GwM String :=
  match truthyStr walletAddress with
  | some w => pureGw w
  | none =>
    andThen (ofValueErr (parseNetworkIdStr networkId)) fun cn =>
    andThen (get_default_wallet_address gw cn.1) fun dw =>
    match truthyStr dw with
    | some a => pureGw a
    | none => throwHttp 400 ("No wallet configured for chain \x27" ++ cn.1 ++ "\x27")

/-- The pool-matching predicate of the resolution loops
(src/routers/gateway_trading.py lines 237-238 and 324-325): legacy
`baseSymbol/quoteSymbol` naming or new `base/quote` naming. -/
def matchesPool (p : PoolEntry) (base quoteTok : String) : Bool :=
  (p.baseSymbol == some base && p.quoteSymbol == some quoteTok) ||
    (p.base == some base && p.quote == some quoteTok)

/-- The pool-scan loop: first matching pool in upstream list order. -/
def findMatchingPool : List PoolEntry → String → String → Option PoolEntry
  | [], _, _ => none
  | p :: rest, b, q => if matchesPool p b q then some p else findMatchingPool rest b q

/-- Embedding of the price-range computation of `open_clmm_position`
(src/routers/gateway_trading.py lines 332-343): explicit bounds win and are
passed through unchecked; otherwise center price and both widths are
required. -/
def compute_price_range (lowerPrice upperPrice price lowerWidthPct upperWidthPct : Option ℚ) :
    Except String (ℚ × ℚ) :=
  match lowerPrice, upperPrice with
  | some lowPr, some upPr => .ok (lowPr, upPr)
  | _, _ =>
    match price, lowerWidthPct, upperWidthPct with
    | some ctr, some lw, some uw => .ok (ctr * (1 - lw / 100), ctr * (1 + uw / 100))
    | _, _, _ =>
      .error "Must provide either (lower_price + upper_price) or (price + lower_width_pct + upper_width_pct)"

/-- `result.get("signature") or result.get("txHash") or result.get("hash")`,
then filtered through the `if not transaction_hash` check. -/
def txHashTruthy (r : TxResp) : Option String :=
  truthyStr (match truthyStr r.signature with
    | some s => some s
    | none =>
      match truthyStr r.txHash with
      | some s => some s
      | none => r.hash)

/-- `result.get("positionAddress") or result.get("position")`, filtered through
the `if not position_address` check. -/
def posAddrTruthy (r : TxResp) : Option String :=
  truthyStr (match truthyStr r.positionAddress with
    | some s => some s
    | none => r.position)

/-- The in-range flag derivation shared by `get_clmm_position_info` and
`get_clmm_positions_owned` (src/routers/gateway_trading.py lines 669-672 and
747-750). -/
def inRangeFlag (currentPrice lowerPrice upperPrice : ℚ) : Bool :=
  if 0 < currentPrice ∧ 0 < lowerPrice ∧ 0 < upperPrice
    then decide (lowerPrice ≤ currentPrice ∧ currentPrice ≤ upperPrice)
    else false

/-! Request and response models (src/models/gateway_trading.py). -/

structure SwapQuoteRequest where
  connector : String
  network : String
  trading_pair : String
  side : String
  amount : ℚ
  slippage_pct : Option ℚ
deriving DecidableEq, Repr

structure SwapQuoteResponse where
  base : String
  quote : String
  price : ℚ
  amount : ℚ
  expected_amount : Option ℚ
  slippage_pct : ℚ
  gas_estimate : Option ℚ
deriving DecidableEq, Repr

structure SwapExecuteRequest where
  connector : String
  network : String
  trading_pair : String
  side : String
  amount : ℚ
  slippage_pct : Option ℚ
  wallet_address : Option String
deriving DecidableEq, Repr

structure SwapExecuteResponse where
  transaction_hash : String
  trading_pair : String
  side : String
  amount : ℚ
  status : String
deriving DecidableEq, Repr

structure GetPoolInfoRequest where
  connector : String
  network : String
  trading_pair : String
deriving DecidableEq, Repr

structure PoolInfo where
  type : String
  address : String
  trading_pair : String
  base_token : String
  quote_token : String
  current_price : ℚ
  base_token_amount : ℚ
  quote_token_amount : ℚ
  fee_pct : ℚ
  bin_step : Option Int
  active_bin_id : Option Int
deriving DecidableEq, Repr

structure CLMMOpenPositionRequest where
  connector : String
  network : String
  trading_pair : String
  lower_price : Option ℚ
  upper_price : Option ℚ
  price : Option ℚ
  lower_width_pct : Option ℚ
  upper_width_pct : Option ℚ
  base_token_amount : Option ℚ
  quote_token_amount : Option ℚ
  slippage_pct : Option ℚ
  wallet_address : Option String
deriving DecidableEq, Repr

structure CLMMOpenPositionResponse where
  transaction_hash : String
  position_address : String
  trading_pair : String
  pool_address : String
  lower_price : ℚ
  upper_price : ℚ
  status : String
deriving DecidableEq, Repr

structure CLMMAddLiquidityRequest where
  connector : String
  network : String
  position_address : String
  base_token_amount : Option ℚ
  quote_token_amount : Option ℚ
  slippage_pct : Option ℚ
  wallet_address : Option String
deriving DecidableEq, Repr

/-- The plain dict returned by the add-liquidity and close-position handlers. -/
structure SimpleTxResponse where
  transaction_hash : String
  position_address : String
  status : String
deriving DecidableEq, Repr

structure CLMMRemoveLiquidityRequest where
  connector : String
  network : String
  position_address : String
  percentage : ℚ
  wallet_address : Option String
deriving DecidableEq, Repr

/-- The plain dict returned by the remove-liquidity handler. -/
structure RemoveLiquidityResponse where
  transaction_hash : String
  position_address : String
  percentage : ℚ
  status : String
deriving DecidableEq, Repr

structure CLMMClosePositionRequest where
  connector : String
  network : String
  position_address : String
  wallet_address : Option String
deriving DecidableEq, Repr

structure CLMMCollectFeesRequest where
  connector : String
  network : String
  position_address : String
  wallet_address : Option String
deriving DecidableEq, Repr

structure CLMMCollectFeesResponse where
  transaction_hash : String
  position_address : String
  base_fee_collected : Option ℚ
  quote_fee_collected : Option ℚ
  status : String
deriving DecidableEq, Repr

structure CLMMPositionsOwnedRequest where
  connector : String
  network : String
  wallet_address : Option String
deriving DecidableEq, Repr

structure CLMMGetPositionInfoRequest where
  connector : String
  network : String
  position_address : String
deriving DecidableEq, Repr

structure CLMMPositionInfo where
  position_address : String
  pool_address : String
  trading_pair : String
  base_token : String
  quote_token : String
  base_token_amount : ℚ
  quote_token_amount : ℚ
  current_price : ℚ
  lower_price : ℚ
  upper_price : ℚ
  base_fee_amount : Option ℚ
  quote_fee_amount : Option ℚ
  lower_bin_id : Option Int
  upper_bin_id : Option Int
  in_range : Bool
deriving DecidableEq, Repr

/-- The per-position construction shared verbatim by `get_clmm_position_info`
(lines 739-768) and `get_clmm_positions_owned` (lines 660-690): token and
price extraction with Python truthiness, trading-pair synthesis, and the
derived `in_range` flag. -/
def buildPositionCore (posAddr : String) (p : PositionRaw) : CLMMPositionInfo :=
  let baseToken := p.baseToken.getD ""
  let quoteToken := p.quoteToken.getD ""
  let tradingPair := if baseToken ≠ "" ∧ quoteToken ≠ ""
    then baseToken ++ "-" ++ quoteToken else ""
  let currentPrice := p.price.getD 0
  let lowerPrice := qTruthy p.lowerPrice
  let upperPrice := qTruthy p.upperPrice
  ⟨posAddr, p.poolAddress.getD "", tradingPair, baseToken, quoteToken,
    p.baseTokenAmount.getD 0, p.quoteTokenAmount.getD 0,
    currentPrice, lowerPrice, upperPrice,
    optQTruthy p.baseFeeAmount, optQTruthy p.quoteFeeAmount,
    p.lowerBinId, p.upperBinId,
    inRangeFlag currentPrice lowerPrice upperPrice⟩

/-! The ten handlers, in source order. -/

/-- Embedding of `get_swap_quote` (src/routers/gateway_trading.py 75-132). -/
def get_swap_quote (gw : Gateway) (req : SwapQuoteRequest) :
    Except HttpErr SwapQuoteResponse × List GwCall :=
  runHandler "Error getting swap quote: " (
    andThen (pingGuard gw) fun _ =>
    andThen (ofValueErr (parseNetworkIdStr req.network)) fun _cn =>
    andThen (ofValueErr (unpackPair req.trading_pair)) fun bq =>
    andThen (gwCall GwCall.quoteSwap gw.quoteResp) fun result =>
    pureGw ⟨bq.1, bq.2, result.price.getD 0, req.amount,
      optQTruthy result.expectedAmount,
      qOrDefault req.slippage_pct 1,
      optQTruthy result.gasEstimate⟩)

/-- Embedding of `execute_swap` (src/routers/gateway_trading.py 135-198). -/
def execute_swap (gw : Gateway) (req : SwapExecuteRequest) :
    Except HttpErr SwapExecuteResponse × List GwCall :=
  runHandler "Error executing swap: " (
    andThen (pingGuard gw) fun _ =>
    andThen (ofValueErr (parseNetworkIdStr req.network)) fun _cn =>
    andThen (get_wallet_address gw req.network req.wallet_address) fun _walletAddr =>
    andThen (ofValueErr (unpackPair req.trading_pair)) fun _bq =>
    andThen (gwCall GwCall.executeSwap gw.swapResp) fun result =>
    match txHashTruthy result with
    | none => throwHttp 500 "No transaction hash returned from Gateway"
    | some h => pureGw ⟨h, req.trading_pair, req.side, req.amount, "submitted"⟩)

/-- Embedding of `get_pool_info` (src/routers/gateway_trading.py 205-279). -/
def get_pool_info (gw : Gateway) (req : GetPoolInfoRequest) :
    Except HttpErr PoolInfo × List GwCall :=
  runHandler "Error getting pool info: " (
    andThen (pingGuard gw) fun _ =>
    andThen (ofValueErr (parseNetworkIdStr req.network)) fun _cn =>
    andThen (gwCall GwCall.getPools gw.poolsResp) fun pools =>
    andThen (ofValueErr (unpackPair req.trading_pair)) fun bq =>
    match findMatchingPool pools bq.1 bq.2 with
    | none => throwHttp 404 ("Pool not found for " ++ req.trading_pair)
    | some poolData =>
      match truthyStr poolData.address with
      | none => throwHttp 404 "Pool address not found"
      | some poolAddr =>
        andThen (gwCall GwCall.poolDetail gw.poolDetailResp) fun result =>
        pureGw ⟨(if result.binStep.isSome || result.binStepSnake.isSome
            then "clmm" else "router"),
          poolAddr, req.trading_pair, bq.1, bq.2,
          result.price.getD 0, result.baseTokenAmount.getD 0,
          result.quoteTokenAmount.getD 0, result.feePct.getD 0,
          pyOrInt result.binStep result.binStepSnake,
          pyOrInt result.activeBinId result.activeBinIdSnake⟩)

/-- Embedding of `open_clmm_position` (src/routers/gateway_trading.py
286-382). -/
def open_clmm_position (gw : Gateway) (req : CLMMOpenPositionRequest) :
    Except HttpErr CLMMOpenPositionResponse × List GwCall :=
  runHandler "Error opening CLMM position: " (
    andThen (pingGuard gw) fun _ =>
    andThen (ofValueErr (parseNetworkIdStr req.network)) fun _cn =>
    andThen (get_wallet_address gw req.network req.wallet_address) fun _walletAddr =>
    andThen (gwCall GwCall.getPools gw.poolsResp) fun pools =>
    andThen (ofValueErr (unpackPair req.trading_pair)) fun bq =>
    match truthyStr (match findMatchingPool pools bq.1 bq.2 with
      | some p => p.address
      | none => none) with
    | none => throwHttp 404 ("Pool not found for " ++ req.trading_pair)
    | some poolAddr =>
      match compute_price_range req.lower_price req.upper_price req.price
        req.lower_width_pct req.upper_width_pct with
      | .error msg => throwHttp 400 msg
      | .ok lu =>
        andThen (gwCall GwCall.clmmOpen gw.openResp) fun result =>
        match txHashTruthy result with
        | none => throwHttp 500 "No transaction hash returned from Gateway"
        | some h =>
          match posAddrTruthy result with
          | none => throwHttp 500 "No position address returned from Gateway"
          | some pa =>
            pureGw ⟨h, pa, req.trading_pair, poolAddr, lu.1, lu.2, "submitted"⟩)

/-- Embedding of `add_liquidity_to_clmm_position`
(src/routers/gateway_trading.py 385-442). -/
def add_liquidity_to_clmm_position (gw : Gateway) (req : CLMMAddLiquidityRequest) :
    Except HttpErr SimpleTxResponse × List GwCall :=
  runHandler "Error adding liquidity to CLMM position: " (
    andThen (pingGuard gw) fun _ =>
    andThen (ofValueErr (parseNetworkIdStr req.network)) fun _cn =>
    andThen (get_wallet_address gw req.network req.wallet_address) fun _walletAddr =>
    andThen (gwCall GwCall.clmmAdd gw.addResp) fun result =>
    match txHashTruthy result with
    | none => throwHttp 500 "No transaction hash returned from Gateway"
    | some h => pureGw ⟨h, req.position_address, "submitted"⟩)

/-- Embedding of `remove_liquidity_from_clmm_position`
(src/routers/gateway_trading.py 445-499). -/
def remove_liquidity_from_clmm_position (gw : Gateway) (req : CLMMRemoveLiquidityRequest) :
    Except HttpErr RemoveLiquidityResponse × List GwCall :=
  runHandler "Error removing liquidity from CLMM position: " (
    andThen (pingGuard gw) fun _ =>
    andThen (ofValueErr (parseNetworkIdStr req.network)) fun _cn =>
    andThen (get_wallet_address gw req.network req.wallet_address) fun _walletAddr =>
    andThen (gwCall GwCall.clmmRemove gw.removeResp) fun result =>
    match txHashTruthy result with
    | none => throwHttp 500 "No transaction hash returned from Gateway"
    | some h => pureGw ⟨h, req.position_address, req.percentage, "submitted"⟩)

/-- Embedding of `close_clmm_position` (src/routers/gateway_trading.py
502-553). -/
def close_clmm_position (gw : Gateway) (req : CLMMClosePositionRequest) :
    Except HttpErr SimpleTxResponse × List GwCall :=
  runHandler "Error closing CLMM position: " (
    andThen (pingGuard gw) fun _ =>
    andThen (ofValueErr (parseNetworkIdStr req.network)) fun _cn =>
    andThen (get_wallet_address gw req.network req.wallet_address) fun _walletAddr =>
    andThen (gwCall GwCall.clmmClose gw.closeResp) fun result =>
    match txHashTruthy result with
    | none => throwHttp 500 "No transaction hash returned from Gateway"
    | some h => pureGw ⟨h, req.position_address, "submitted"⟩)

/-- Embedding of `collect_fees_from_clmm_position`
(src/routers/gateway_trading.py 556-620): reads position info first (for the
fee snapshot), then issues the collect call. -/
def collect_fees_from_clmm_position (gw : Gateway) (req : CLMMCollectFeesRequest) :
    Except HttpErr CLMMCollectFeesResponse × List GwCall :=
  runHandler "Error collecting fees: " (
    andThen (pingGuard gw) fun _ =>
    andThen (ofValueErr (parseNetworkIdStr req.network)) fun _cn =>
    andThen (get_wallet_address gw req.network req.wallet_address) fun _walletAddr =>
    andThen (gwCall GwCall.positionLookup gw.positionResp) fun posInfo =>
    andThen (gwCall GwCall.clmmCollect gw.collectResp) fun result =>
    match txHashTruthy result with
    | none => throwHttp 500 "No transaction hash returned from Gateway"
    | some h =>
      pureGw ⟨h, req.position_address,
        qOptIfTruthy (posInfo.baseFeeAmount.getD 0),
        qOptIfTruthy (posInfo.quoteFeeAmount.getD 0), "submitted"⟩)

/-- Embedding of `get_clmm_positions_owned` (src/routers/gateway_trading.py
623-700). -/
def get_clmm_positions_owned (gw : Gateway) (req : CLMMPositionsOwnedRequest) :
    Except HttpErr (List CLMMPositionInfo) × List GwCall :=
  runHandler "Error getting CLMM positions owned: " (
    andThen (pingGuard gw) fun _ =>
    andThen (ofValueErr (parseNetworkIdStr req.network)) fun _cn =>
    andThen (get_wallet_address gw req.network req.wallet_address) fun _walletAddr =>
    andThen (gwCall GwCall.positionsList gw.positionsResp) fun result =>
    pureGw (((match result with
      | .asList items => items
      | .asObj positions => positions.getD []) : List PositionRaw).map
        (fun pos => buildPositionCore (pos.address.getD "") pos)))

/-- Embedding of `get_clmm_position_info` (src/routers/gateway_trading.py
703-776): note that it resolves the default wallet directly (there is no
explicit wallet parameter on this endpoint). -/
def get_clmm_position_info (gw : Gateway) (req : CLMMGetPositionInfoRequest) :
    Except HttpErr CLMMPositionInfo × List GwCall :=
  runHandler "Error getting CLMM position info: " (
    andThen (pingGuard gw) fun _ =>
    andThen (ofValueErr (parseNetworkIdStr req.network)) fun cn =>
    andThen (get_default_wallet_address gw cn.1) fun dw =>
    match truthyStr dw with
    | none => throwHttp 400 ("No wallet configured for chain \x27" ++ cn.1 ++ "\x27")
    | some _walletAddr =>
      andThen (gwCall GwCall.positionLookup gw.positionResp) fun result =>
      pureGw (buildPositionCore req.position_address result))

/-! ## Claim C1: the derived in-range flag -/

/-- C1: For every upstream position object, the derived `in_range` flag (the
construction shared by `get_clmm_position_info` and `get_clmm_positions_owned`)
is true iff `current_price > 0`, `lower_price > 0`, `upper_price > 0` and
`lower_price ≤ current_price ≤ upper_price` — all on the derived fields of the
output; in every other case (including when `lowerPrice` or `upperPrice` is
absent upstream and therefore derived as zero) it is false. -/
theorem c1_in_range_derivation (a : String) (p : PositionRaw) :
    ((buildPositionCore a p).in_range = true ↔
      (0 < (buildPositionCore a p).current_price ∧
       0 < (buildPositionCore a p).lower_price ∧
       0 < (buildPositionCore a p).upper_price ∧
       (buildPositionCore a p).lower_price ≤ (buildPositionCore a p).current_price ∧
       (buildPositionCore a p).current_price ≤ (buildPositionCore a p).upper_price)) ∧
    ((p.lowerPrice = none ∨ p.upperPrice = none) →
      (buildPositionCore a p).in_range = false) := by
  constructor
  · simp only [buildPositionCore, inRangeFlag]
    by_cases h : 0 < p.price.getD 0 ∧ 0 < qTruthy p.lowerPrice ∧ 0 < qTruthy p.upperPrice
    · rw [if_pos h]
      simp only [decide_eq_true_eq]
      constructor
      · intro hle
        exact ⟨h.1, h.2.1, h.2.2, hle.1, hle.2⟩
      · intro hall
        exact ⟨hall.2.2.2.1, hall.2.2.2.2⟩
    · rw [if_neg h]
      simp only [Bool.false_eq_true, false_iff]
      intro hall
      exact h ⟨hall.1, hall.2.1, hall.2.2.1⟩
  · intro habs
    simp only [buildPositionCore, inRangeFlag]
    rcases habs with h | h <;>
      rw [h] <;>
      simp [qTruthy]

/-- Witness for C1: a position with `lowerPrice` absent has `in_range = false`
even at a positive current price, and an in-band position has
`in_range = true`. -/
theorem c1_in_range_derivation_witness :
    (buildPositionCore "POS"
      ⟨some "POS", some "P", some "SOL", some "USDC", some 1, some 2, some 100,
        none, some 105, none, none, none, none⟩).in_range = false ∧
    (buildPositionCore "POS"
      ⟨some "POS", some "P", some "SOL", some "USDC", some 1, some 2, some 100,
        some 95, some 105, none, none, none, none⟩).in_range = true :=
  ⟨(c1_in_range_derivation "POS" _).2 (Or.inl rfl),
    ((c1_in_range_derivation "POS"
      ⟨some "POS", some "P", some "SOL", some "USDC", some 1, some 2, some 100,
        some 95, some 105, none, none, none, none⟩).1).mpr
      (by norm_num [buildPositionCore, qTruthy])⟩

/-! Decomposition lemmas for handler computations. -/

theorem runHandler_ok {α : Type} {errCtx : String} {m : GwM α} {r : α} {t : List GwCall}
    (h : runHandler errCtx m = (.ok r, t)) : m [] = (.ok r, t) := by
  unfold runHandler at h
  rcases hm : m [] with ⟨e, tr⟩
  rw [hm] at h
  cases e with
  | ok a =>
    simp only [Prod.mk.injEq, Except.ok.injEq] at h
    rw [h.1, h.2]
  | error e => cases e <;> simp at h

theorem andThen_ok {α β : Type} {x : GwM α} {f : α → GwM β} {t0 : List GwCall} {b : β}
    {t : List GwCall} (h : andThen x f t0 = (.ok b, t)) :
    ∃ a t1, x t0 = (.ok a, t1) ∧ f a t1 = (.ok b, t) := by
  unfold andThen at h
  rcases hx : x t0 with ⟨e, t1⟩
  rw [hx] at h
  cases e with
  | ok a => exact ⟨a, t1, rfl, h⟩
  | error e => simp at h

/-! ## Claim C10: mutating operations report status "submitted" -/

/-- C10: Every mutating operation (execute swap, open position, add liquidity,
remove liquidity, close position, collect fees) that returns successfully
reports `status = "submitted"`, regardless of the status field of the
upstream response. -/
theorem c10_status_submitted :
    (∀ (gw : Gateway) (req : SwapExecuteRequest) (r : SwapExecuteResponse) (t : List GwCall),
      execute_swap gw req = (.ok r, t) → r.status = "submitted") ∧
    (∀ (gw : Gateway) (req : CLMMOpenPositionRequest) (r : CLMMOpenPositionResponse)
        (t : List GwCall),
      open_clmm_position gw req = (.ok r, t) → r.status = "submitted") ∧
    (∀ (gw : Gateway) (req : CLMMAddLiquidityRequest) (r : SimpleTxResponse) (t : List GwCall),
      add_liquidity_to_clmm_position gw req = (.ok r, t) → r.status = "submitted") ∧
    (∀ (gw : Gateway) (req : CLMMRemoveLiquidityRequest) (r : RemoveLiquidityResponse)
        (t : List GwCall),
      remove_liquidity_from_clmm_position gw req = (.ok r, t) → r.status = "submitted") ∧
    (∀ (gw : Gateway) (req : CLMMClosePositionRequest) (r : SimpleTxResponse) (t : List GwCall),
      close_clmm_position gw req = (.ok r, t) → r.status = "submitted") ∧
    (∀ (gw : Gateway) (req : CLMMCollectFeesRequest) (r : CLMMCollectFeesResponse)
        (t : List GwCall),
      collect_fees_from_clmm_position gw req = (.ok r, t) → r.status = "submitted") := by
  refine ⟨?_, ?_, ?_, ?_, ?_, ?_⟩
  · intro gw req r t h
    unfold execute_swap at h
    have h1 := runHandler_ok h
    obtain ⟨_, t1, _, h2⟩ := andThen_ok h1
    obtain ⟨cn, t2, _, h3⟩ := andThen_ok h2
    obtain ⟨w, t3, _, h4⟩ := andThen_ok h3
    obtain ⟨bq, t4, _, h5⟩ := andThen_ok h4
    obtain ⟨res, t5, _, h6⟩ := andThen_ok h5
    rcases htx : txHashTruthy res with _ | hsh
    · rw [htx] at h6
      simp [throwHttp] at h6
    · rw [htx] at h6
      simp only [pureGw, Prod.mk.injEq, Except.ok.injEq] at h6
      rw [← h6.1]
  · intro gw req r t h
    unfold open_clmm_position at h
    have h1 := runHandler_ok h
    obtain ⟨_, t1, _, h2⟩ := andThen_ok h1
    obtain ⟨cn, t2, _, h3⟩ := andThen_ok h2
    obtain ⟨w, t3, _, h4⟩ := andThen_ok h3
    obtain ⟨pools, t4, _, h5⟩ := andThen_ok h4
    obtain ⟨bq, t5, _, h6⟩ := andThen_ok h5
    rcases hpa : truthyStr (match findMatchingPool pools bq.1 bq.2 with
      | some p => p.address
      | none => none) with _ | pa
    · rw [hpa] at h6
      simp [throwHttp] at h6
    · rw [hpa] at h6
      rcases hcr : compute_price_range req.lower_price req.upper_price req.price
        req.lower_width_pct req.upper_width_pct with msg | lu
      · rw [hcr] at h6
        simp [throwHttp] at h6
      · rw [hcr] at h6
        obtain ⟨res, t6, _, h7⟩ := andThen_ok h6
        rcases htx : txHashTruthy res with _ | hsh
        · rw [htx] at h7
          simp [throwHttp] at h7
        · rw [htx] at h7
          rcases hpos : posAddrTruthy res with _ | posa
          · rw [hpos] at h7
            simp [throwHttp] at h7
          · rw [hpos] at h7
            simp only [pureGw, Prod.mk.injEq, Except.ok.injEq] at h7
            rw [← h7.1]
  · intro gw req r t h
    unfold add_liquidity_to_clmm_position at h
    have h1 := runHandler_ok h
    obtain ⟨_, t1, _, h2⟩ := andThen_ok h1
    obtain ⟨cn, t2, _, h3⟩ := andThen_ok h2
    obtain ⟨w, t3, _, h4⟩ := andThen_ok h3
    obtain ⟨res, t4, _, h5⟩ := andThen_ok h4
    rcases htx : txHashTruthy res with _ | hsh
    · rw [htx] at h5
      simp [throwHttp] at h5
    · rw [htx] at h5
      simp only [pureGw, Prod.mk.injEq, Except.ok.injEq] at h5
      rw [← h5.1]
  · intro gw req r t h
    unfold remove_liquidity_from_clmm_position at h
    have h1 := runHandler_ok h
    obtain ⟨_, t1, _, h2⟩ := andThen_ok h1
    obtain ⟨cn, t2, _, h3⟩ := andThen_ok h2
    obtain ⟨w, t3, _, h4⟩ := andThen_ok h3
    obtain ⟨res, t4, _, h5⟩ := andThen_ok h4
    rcases htx : txHashTruthy res with _ | hsh
    · rw [htx] at h5
      simp [throwHttp] at h5
    · rw [htx] at h5
      simp only [pureGw, Prod.mk.injEq, Except.ok.injEq] at h5
      rw [← h5.1]
  · intro gw req r t h
    unfold close_clmm_position at h
    have h1 := runHandler_ok h
    obtain ⟨_, t1, _, h2⟩ := andThen_ok h1
    obtain ⟨cn, t2, _, h3⟩ := andThen_ok h2
    obtain ⟨w, t3, _, h4⟩ := andThen_ok h3
    obtain ⟨res, t4, _, h5⟩ := andThen_ok h4
    rcases htx : txHashTruthy res with _ | hsh
    · rw [htx] at h5
      simp [throwHttp] at h5
    · rw [htx] at h5
      simp only [pureGw, Prod.mk.injEq, Except.ok.injEq] at h5
      rw [← h5.1]
  · intro gw req r t h
    unfold collect_fees_from_clmm_position at h
    have h1 := runHandler_ok h
    obtain ⟨_, t1, _, h2⟩ := andThen_ok h1
    obtain ⟨cn, t2, _, h3⟩ := andThen_ok h2
    obtain ⟨w, t3, _, h4⟩ := andThen_ok h3
    obtain ⟨posInfo, t4, _, h5⟩ := andThen_ok h4
    obtain ⟨res, t5, _, h6⟩ := andThen_ok h5
    rcases htx : txHashTruthy res with _ | hsh
    · rw [htx] at h6
      simp [throwHttp] at h6
    · rw [htx] at h6
      simp only [pureGw, Prod.mk.injEq, Except.ok.injEq] at h6
      rw [← h6.1]

/-- Witness for C10: a successful swap whose upstream response carries
`status = "confirmed"`, yet the adapter reports `"submitted"`. -/
theorem c10_status_submitted_witness :
    execute_swap
      ⟨true, .ok [⟨some "solana", ["W1"]⟩], .ok [], .error "x", .error "x",
        .ok ⟨some "abc", none, none, some "POS1", none, some "confirmed"⟩,
        .error "x", .error "x", .error "x", .error "x", .error "x", .error "x",
        .error "x"⟩
      ⟨"jupiter", "solana-mainnet-beta", "SOL-USDC", "BUY", 1, some 1, some "W1"⟩ =
      (.ok ⟨"abc", "SOL-USDC", "BUY", 1, "submitted"⟩, [GwCall.executeSwap]) ∧
    (⟨"abc", "SOL-USDC", "BUY", 1, "submitted"⟩ : SwapExecuteResponse).status = "submitted" :=
  ⟨by decide,
    c10_status_submitted.1
      ⟨true, .ok [⟨some "solana", ["W1"]⟩], .ok [], .error "x", .error "x",
        .ok ⟨some "abc", none, none, some "POS1", none, some "confirmed"⟩,
        .error "x", .error "x", .error "x", .error "x", .error "x", .error "x",
        .error "x"⟩
      ⟨"jupiter", "solana-mainnet-beta", "SOL-USDC", "BUY", 1, some 1, some "W1"⟩
      ⟨"abc", "SOL-USDC", "BUY", 1, "submitted"⟩ [GwCall.executeSwap] (by decide)⟩

/-! ## Claim C5: liveness check short-circuits with no downstream call -/

/-- C5: On every operation, if the liveness check fails (`ping` returns
false), the handler fails with 503 "Gateway service is not available" and the
trace of downstream calls is empty. -/
theorem c5_liveness_short_circuit (gw : Gateway) (h : gw.pingOk = false) :
    (∀ req, get_swap_quote gw req =
      (.error ⟨503, "Gateway service is not available"⟩, [])) ∧
    (∀ req, execute_swap gw req =
      (.error ⟨503, "Gateway service is not available"⟩, [])) ∧
    (∀ req, get_pool_info gw req =
      (.error ⟨503, "Gateway service is not available"⟩, [])) ∧
    (∀ req, open_clmm_position gw req =
      (.error ⟨503, "Gateway service is not available"⟩, [])) ∧
    (∀ req, add_liquidity_to_clmm_position gw req =
      (.error ⟨503, "Gateway service is not available"⟩, [])) ∧
    (∀ req, remove_liquidity_from_clmm_position gw req =
      (.error ⟨503, "Gateway service is not available"⟩, [])) ∧
    (∀ req, close_clmm_position gw req =
      (.error ⟨503, "Gateway service is not available"⟩, [])) ∧
    (∀ req, collect_fees_from_clmm_position gw req =
      (.error ⟨503, "Gateway service is not available"⟩, [])) ∧
    (∀ req, get_clmm_positions_owned gw req =
      (.error ⟨503, "Gateway service is not available"⟩, [])) ∧
    (∀ req, get_clmm_position_info gw req =
      (.error ⟨503, "Gateway service is not available"⟩, [])) := by
  refine ⟨?_, ?_, ?_, ?_, ?_, ?_, ?_, ?_, ?_, ?_⟩ <;>
    intro req <;>
    simp [get_swap_quote, execute_swap, get_pool_info, open_clmm_position,
      add_liquidity_to_clmm_position, remove_liquidity_from_clmm_position,
      close_clmm_position, collect_fees_from_clmm_position,
      get_clmm_positions_owned, get_clmm_position_info,
      runHandler, andThen, pingGuard, h]

/-- Witness for C5: a gateway with `pingOk = false` makes the open-position
and swap-execute handlers fail 503 with an empty call trace. -/
theorem c5_liveness_short_circuit_witness :
    open_clmm_position
      ⟨false, .ok [], .ok [], .error "x", .error "x", .error "x", .error "x",
        .error "x", .error "x", .error "x", .error "x", .error "x", .error "x"⟩
      ⟨"meteora", "solana-mainnet-beta", "SOL-USDC", some 95, some 105, none, none,
        none, some 1, some 100, some 1, none⟩ =
      (.error ⟨503, "Gateway service is not available"⟩, []) ∧
    execute_swap
      ⟨false, .ok [], .ok [], .error "x", .error "x", .error "x", .error "x",
        .error "x", .error "x", .error "x", .error "x", .error "x", .error "x"⟩
      ⟨"jupiter", "solana-mainnet-beta", "SOL-USDC", "BUY", 1, some 1, none⟩ =
      (.error ⟨503, "Gateway service is not available"⟩, []) :=
  ⟨(c5_liveness_short_circuit _ rfl).2.2.2.1 _,
    (c5_liveness_short_circuit _ rfl).2.1 _⟩

/-! ## Claim C2: the price-range computation of the open-position operation -/

theorem compute_price_range_error (lo hi pr lw uw : Option ℚ)
    (hlo : lo = none ∨ hi = none)
    (hwp : pr = none ∨ lw = none ∨ uw = none) :
    compute_price_range lo hi pr lw uw =
      .error "Must provide either (lower_price + upper_price) or (price + lower_width_pct + upper_width_pct)" := by
  unfold compute_price_range
  rcases lo with _ | lo <;> rcases hi with _ | hi <;>
    rcases pr with _ | pr <;> rcases lw with _ | lw <;> rcases uw with _ | uw <;>
    simp_all

/-- C2: When both `lower_price` and `upper_price` are supplied they are used
directly with no ordering check; otherwise, if `price`, `lower_width_pct` and
`upper_width_pct` are all supplied, the bounds are
`price * (1 - lower_width_pct/100)` and `price * (1 + upper_width_pct/100)`;
if neither parameter set is complete the open-position operation fails with
the 400 validation error and the position-open call is never issued (the
trace stops at the pool listing). -/
theorem c2_price_range_computation :
    (∀ (lowPr upPr : ℚ) (pr lw uw : Option ℚ),
      compute_price_range (some lowPr) (some upPr) pr lw uw = .ok (lowPr, upPr)) ∧
    (∀ (lo hi : Option ℚ) (pr lw uw : ℚ), (lo = none ∨ hi = none) →
      compute_price_range lo hi (some pr) (some lw) (some uw) =
        .ok (pr * (1 - lw / 100), pr * (1 + uw / 100))) ∧
    (∀ lo hi pr lw uw : Option ℚ, (lo = none ∨ hi = none) →
      (pr = none ∨ lw = none ∨ uw = none) →
      compute_price_range lo hi pr lw uw =
        .error "Must provide either (lower_price + upper_price) or (price + lower_width_pct + upper_width_pct)") ∧
    (∀ (gw : Gateway) (req : CLMMOpenPositionRequest) (cn : String × String)
        (w : String) (pools : List PoolEntry) (bq : String × String) (addr : String),
      gw.pingOk = true →
      parseNetworkIdStr req.network = .ok cn →
      req.wallet_address = some w → w ≠ "" →
      gw.poolsResp = .ok pools →
      unpackPair req.trading_pair = .ok bq →
      truthyStr (match findMatchingPool pools bq.1 bq.2 with
        | some p => p.address
        | none => none) = some addr →
      (req.lower_price = none ∨ req.upper_price = none) →
      (req.price = none ∨ req.lower_width_pct = none ∨ req.upper_width_pct = none) →
      open_clmm_position gw req =
        (.error ⟨400, "Must provide either (lower_price + upper_price) or (price + lower_width_pct + upper_width_pct)"⟩,
         [GwCall.getPools])) := by
  refine ⟨?_, ?_, ?_, ?_⟩
  · intro lowPr upPr pr lw uw
    rfl
  · intro lo hi pr lw uw h
    unfold compute_price_range
    rcases lo with _ | lo <;> rcases hi with _ | hi <;> simp_all
  · intro lo hi pr lw uw hlo hwp
    exact compute_price_range_error lo hi pr lw uw hlo hwp
  · intro gw req cn w pools bq addr hping hparse hw hwne hpools hbq hfound hlo hwp
    have hcr := compute_price_range_error req.lower_price req.upper_price req.price
      req.lower_width_pct req.upper_width_pct hlo hwp
    have hwt : truthyStr req.wallet_address = some w := by
      simp [truthyStr, hw, hwne]
    unfold open_clmm_position
    simp [runHandler, andThen, pingGuard, ofValueErr, gwCall, pureGw, throwHttp,
      get_wallet_address, hping, hparse, hwt, hpools, hbq, hfound, hcr]

/-- Witness for C2: the three table rows of the spec
(`(95,105)` direct, `100 ± 5%`, and the empty parameter set), plus a
concrete open-position request with no range parameters stopping at the
pool listing with the 400 validation error. -/
theorem c2_price_range_computation_witness :
    compute_price_range (some 95) (some 105) none none none = .ok (95, 105) ∧
    compute_price_range none none (some 100) (some 5) (some 5) = .ok (95, 105) ∧
    compute_price_range none none none none none =
      .error "Must provide either (lower_price + upper_price) or (price + lower_width_pct + upper_width_pct)" ∧
    open_clmm_position
      ⟨true, .ok [⟨some "solana", ["W1"]⟩],
        .ok [⟨some "SOL", some "USDC", none, none, some "P1"⟩], .error "x", .error "x",
        .error "x", .error "x", .error "x", .error "x", .error "x", .error "x",
        .error "x", .error "x"⟩
      ⟨"meteora", "solana-mainnet-beta", "SOL-USDC", none, none, none, none, none,
        some 1, some 100, some 1, some "W1"⟩ =
      (.error ⟨400, "Must provide either (lower_price + upper_price) or (price + lower_width_pct + upper_width_pct)"⟩,
       [GwCall.getPools]) := by
  refine ⟨c2_price_range_computation.1 95 105 none none none, ?_, ?_, ?_⟩
  · have := c2_price_range_computation.2.1 none none 100 5 5 (Or.inl rfl)
    rw [this]
    norm_num
  · exact c2_price_range_computation.2.2.1 none none none none none (Or.inl rfl) (Or.inl rfl)
  · exact c2_price_range_computation.2.2.2 _ _ ("solana", "mainnet-beta") "W1"
      [⟨some "SOL", some "USDC", none, none, some "P1"⟩] ("SOL", "USDC") "P1"
      rfl (by decide) rfl (by decide) rfl (by decide) (by decide)
      (Or.inl rfl) (Or.inl rfl)

/-! ## Claim C3: pool resolution -/

theorem findMatchingPool_none_iff (pools : List PoolEntry) (b q : String) :
    findMatchingPool pools b q = none ↔ ∀ p ∈ pools, matchesPool p b q = false := by
  induction pools with
  | nil => simp [findMatchingPool]
  | cons ph rest ih =>
    by_cases hm : matchesPool ph b q = true
    · simp [findMatchingPool, hm]
    · have hmf : matchesPool ph b q = false := by simpa using hm
      simp [findMatchingPool, hmf, ih]

theorem findMatchingPool_some_iff (pools : List PoolEntry) (b q : String) (p : PoolEntry) :
    findMatchingPool pools b q = some p ↔
      ∃ l1 l2, pools = l1 ++ p :: l2 ∧ matchesPool p b q = true ∧
        ∀ p2 ∈ l1, matchesPool p2 b q = false := by
  induction pools with
  | nil => simp [findMatchingPool]
  | cons ph rest ih =>
    by_cases hm : matchesPool ph b q = true
    · rw [show findMatchingPool (ph :: rest) b q = some ph from by
        simp [findMatchingPool, hm]]
      constructor
      · intro hsome
        injection hsome with hph
        subst hph
        exact ⟨[], rest, rfl, hm, by simp⟩
      · rintro ⟨l1, l2, hsplit, hmp, hall⟩
        cases l1 with
        | nil =>
          simp only [List.nil_append] at hsplit
          injection hsplit with h1 _
          rw [h1]
        | cons x l1' =>
          simp only [List.cons_append] at hsplit
          injection hsplit with h1 _
          subst h1
          have hf := hall ph (by simp)
          rw [hf] at hm
          exact absurd hm (by simp)
    · have hmf : matchesPool ph b q = false := by simpa using hm
      rw [show findMatchingPool (ph :: rest) b q = findMatchingPool rest b q from by
        simp [findMatchingPool, hmf]]
      rw [ih]
      constructor
      · rintro ⟨l1, l2, hsplit, hmp, hall⟩
        refine ⟨ph :: l1, l2, by simp [hsplit], hmp, ?_⟩
        intro p2 hp2
        rcases List.mem_cons.mp hp2 with rfl | hp2'
        · exact hmf
        · exact hall p2 hp2'
      · rintro ⟨l1, l2, hsplit, hmp, hall⟩
        cases l1 with
        | nil =>
          simp only [List.nil_append] at hsplit
          injection hsplit with h1 _
          subst h1
          rw [hmp] at hmf
          exact absurd hmf (by simp)
        | cons x l1' =>
          simp only [List.cons_append] at hsplit
          injection hsplit with h1 h2
          subst h1
          exact ⟨l1', l2, h2, hmp, fun p2 hp2 => hall p2 (by simp [hp2])⟩

/-- C3: Pool resolution returns the first pool in upstream list order whose
fields match `(base, quote)` under either the legacy naming
(`baseSymbol`/`quoteSymbol`) or the new naming (`base`/`quote`); when no pool
matches (in particular on an empty list) both `get_pool_info` and
`open_clmm_position` fail 404 "Pool not found" and issue no further
downstream call (the trace ends at the pool listing). -/
theorem c3_pool_resolution :
    (∀ (pools : List PoolEntry) (b q : String) (p : PoolEntry),
      findMatchingPool pools b q = some p ↔
        ∃ l1 l2, pools = l1 ++ p :: l2 ∧ matchesPool p b q = true ∧
          ∀ p2 ∈ l1, matchesPool p2 b q = false) ∧
    (∀ (pools : List PoolEntry) (b q : String),
      findMatchingPool pools b q = none ↔ ∀ p ∈ pools, matchesPool p b q = false) ∧
    (∀ (p : PoolEntry) (b q : String),
      matchesPool p b q =
        ((p.baseSymbol == some b && p.quoteSymbol == some q) ||
          (p.base == some b && p.quote == some q))) ∧
    (∀ (gw : Gateway) (req : GetPoolInfoRequest) (cn : String × String)
        (pools : List PoolEntry) (bq : String × String),
      gw.pingOk = true →
      parseNetworkIdStr req.network = .ok cn →
      gw.poolsResp = .ok pools →
      unpackPair req.trading_pair = .ok bq →
      findMatchingPool pools bq.1 bq.2 = none →
      get_pool_info gw req =
        (.error ⟨404, "Pool not found for " ++ req.trading_pair⟩, [GwCall.getPools])) ∧
    (∀ (gw : Gateway) (req : CLMMOpenPositionRequest) (cn : String × String) (w : String)
        (pools : List PoolEntry) (bq : String × String),
      gw.pingOk = true →
      parseNetworkIdStr req.network = .ok cn →
      req.wallet_address = some w → w ≠ "" →
      gw.poolsResp = .ok pools →
      unpackPair req.trading_pair = .ok bq →
      findMatchingPool pools bq.1 bq.2 = none →
      open_clmm_position gw req =
        (.error ⟨404, "Pool not found for " ++ req.trading_pair⟩, [GwCall.getPools])) := by
  refine ⟨findMatchingPool_some_iff, findMatchingPool_none_iff, fun _ _ _ => rfl, ?_, ?_⟩
  · intro gw req cn pools bq hping hparse hpools hbq hfind
    unfold get_pool_info
    simp [runHandler, andThen, pingGuard, ofValueErr, gwCall, pureGw, throwHttp,
      hping, hparse, hpools, hbq, hfind]
  · intro gw req cn w pools bq hping hparse hw hwne hpools hbq hfind
    have hwt : truthyStr req.wallet_address = some w := by
      simp [truthyStr, hw, hwne]
    have hfound : truthyStr (match findMatchingPool pools bq.1 bq.2 with
        | some p => p.address
        | none => none) = none := by
      rw [hfind]
      rfl
    unfold open_clmm_position
    simp [runHandler, andThen, pingGuard, ofValueErr, gwCall, pureGw, throwHttp,
      get_wallet_address, hping, hparse, hwt, hpools, hbq, hfound]

/-- Witness for C3: the spec's example pool list (legacy naming) resolves
`SOL-USDC`, a new-naming pool resolves as well, and an empty pool list makes
`get_pool_info` fail 404 right after the pool listing. -/
theorem c3_pool_resolution_witness :
    (∃ l1 l2, ([⟨some "SOL", some "USDC", none, none, some "P1"⟩] : List PoolEntry) =
        l1 ++ (⟨some "SOL", some "USDC", none, none, some "P1"⟩ : PoolEntry) :: l2 ∧
        matchesPool ⟨some "SOL", some "USDC", none, none, some "P1"⟩ "SOL" "USDC" = true ∧
        ∀ p2 ∈ l1, matchesPool p2 "SOL" "USDC" = false) ∧
    (∃ l1 l2, ([⟨none, none, some "SOL", some "USDC", some "P2"⟩] : List PoolEntry) =
        l1 ++ (⟨none, none, some "SOL", some "USDC", some "P2"⟩ : PoolEntry) :: l2 ∧
        matchesPool ⟨none, none, some "SOL", some "USDC", some "P2"⟩ "SOL" "USDC" = true ∧
        ∀ p2 ∈ l1, matchesPool p2 "SOL" "USDC" = false) ∧
    get_pool_info
      ⟨true, .ok [], .ok [], .error "x", .error "x", .error "x", .error "x",
        .error "x", .error "x", .error "x", .error "x", .error "x", .error "x"⟩
      ⟨"meteora", "solana-mainnet-beta", "SOL-USDC"⟩ =
      (.error ⟨404, "Pool not found for SOL-USDC"⟩, [GwCall.getPools]) :=
  ⟨(c3_pool_resolution.1 _ "SOL" "USDC" _).mp (by decide),
    (c3_pool_resolution.1 _ "SOL" "USDC" _).mp (by decide),
    c3_pool_resolution.2.2.2.1 _ _ ("solana", "mainnet-beta") [] ("SOL", "USDC")
      rfl (by decide) rfl (by decide) rfl⟩

/-! ## Claim C4: are validation errors detected before downstream calls? -/

/-- C4 fails as stated: with the range parameters missing and no explicit
wallet, `open_clmm_position` issues the wallet listing AND the pool listing
before returning the 400 validation error, so downstream calls do happen
before caller-supplied parameters are validated. -/
theorem c4_validation_order_counterexample :
    open_clmm_position
      ⟨true, .ok [⟨some "solana", ["W1"]⟩],
        .ok [⟨some "SOL", some "USDC", none, none, some "P1"⟩], .error "x", .error "x",
        .error "x", .error "x", .error "x", .error "x", .error "x", .error "x",
        .error "x", .error "x"⟩
      ⟨"meteora", "solana-mainnet-beta", "SOL-USDC", none, none, none, none, none,
        some 1, some 100, some 1, none⟩ =
      (.error ⟨400, "Must provide either (lower_price + upper_price) or (price + lower_width_pct + upper_width_pct)"⟩,
       [GwCall.getWallets, GwCall.getPools]) ∧
    ([GwCall.getWallets, GwCall.getPools] : List GwCall) ≠ [] := by
  constructor
  · decide
  · decide

/-- C4 (amended): a malformed network id is rejected before any downstream
call; the missing range-parameter validation of the open-position operation,
however, runs only after the wallet lookup and the pool listing, though still
before the position-open call, which is never issued in that case. -/
theorem c4_validation_order_amended :
    (∀ (gw : Gateway) (req : CLMMOpenPositionRequest) (m : String),
      gw.pingOk = true →
      parseNetworkIdStr req.network = .error m →
      open_clmm_position gw req = (.error ⟨400, m⟩, [])) ∧
    (∀ (gw : Gateway) (req : CLMMOpenPositionRequest) (cn : String × String)
        (dw : String) (pools : List PoolEntry) (bq : String × String) (addr : String),
      gw.pingOk = true →
      parseNetworkIdStr req.network = .ok cn →
      req.wallet_address = none →
      truthyStr (defaultWalletOf gw cn.1) = some dw →
      gw.poolsResp = .ok pools →
      unpackPair req.trading_pair = .ok bq →
      truthyStr (match findMatchingPool pools bq.1 bq.2 with
        | some p => p.address
        | none => none) = some addr →
      (req.lower_price = none ∨ req.upper_price = none) →
      (req.price = none ∨ req.lower_width_pct = none ∨ req.upper_width_pct = none) →
      open_clmm_position gw req =
        (.error ⟨400, "Must provide either (lower_price + upper_price) or (price + lower_width_pct + upper_width_pct)"⟩,
         [GwCall.getWallets, GwCall.getPools])) := by
  constructor
  · intro gw req m hping hparse
    unfold open_clmm_position
    simp [runHandler, andThen, pingGuard, ofValueErr, gwCall, pureGw, throwHttp,
      hping, hparse]
  · intro gw req cn dw pools bq addr hping hparse hw hdw hpools hbq hfound hlo hwp
    have hcr := compute_price_range_error req.lower_price req.upper_price req.price
      req.lower_width_pct req.upper_width_pct hlo hwp
    have hwt : truthyStr req.wallet_address = none := by
      simp [truthyStr, hw]
    unfold open_clmm_position
    simp [runHandler, andThen, pingGuard, ofValueErr, gwCall, pureGw, throwHttp,
      get_wallet_address, get_default_wallet_address,
      hping, hparse, hwt, hdw, hpools, hbq, hfound, hcr]

/-- Witness for the amended C4: a malformed network id is rejected with an
empty trace, and the missing-range request is rejected with exactly the
wallet listing and pool listing in the trace. -/
theorem c4_validation_order_amended_witness :
    open_clmm_position
      ⟨true, .ok [], .ok [], .error "x", .error "x", .error "x", .error "x",
        .error "x", .error "x", .error "x", .error "x", .error "x", .error "x"⟩
      ⟨"meteora", "solanamainnetbeta", "SOL-USDC", some 95, some 105, none, none, none,
        some 1, some 100, some 1, none⟩ =
      (.error ⟨400, "Invalid network_id format. Expected \x27chain-network\x27, got \x27solanamainnetbeta\x27"⟩,
       []) ∧
    open_clmm_position
      ⟨true, .ok [⟨some "solana", ["W1"]⟩],
        .ok [⟨some "SOL", some "USDC", none, none, some "P1"⟩], .error "x", .error "x",
        .error "x", .error "x", .error "x", .error "x", .error "x", .error "x",
        .error "x", .error "x"⟩
      ⟨"meteora", "solana-mainnet-beta", "SOL-USDC", none, none, none, none, none,
        some 1, some 100, some 1, none⟩ =
      (.error ⟨400, "Must provide either (lower_price + upper_price) or (price + lower_width_pct + upper_width_pct)"⟩,
       [GwCall.getWallets, GwCall.getPools]) :=
  ⟨c4_validation_order_amended.1 _ _
      "Invalid network_id format. Expected \x27chain-network\x27, got \x27solanamainnetbeta\x27"
      rfl (by decide),
    c4_validation_order_amended.2 _ _ ("solana", "mainnet-beta") "W1"
      [⟨some "SOL", some "USDC", none, none, some "P1"⟩] ("SOL", "USDC") "P1"
      rfl (by decide) rfl (by decide) rfl (by decide) (by decide)
      (Or.inl rfl) (Or.inl rfl)⟩

/-! ## Claim C9: are downstream failures always surfaced as upstream errors? -/

/-- C9 fails as stated: a transport failure while listing wallets during
default-wallet resolution ("connection refused") is not surfaced as an
upstream error; `execute_swap` reports 400 "No wallet configured for chain
'solana'" instead. -/
theorem c9_upstream_error_counterexample :
    execute_swap
      ⟨true, .error "connection refused", .ok [], .error "x", .error "x", .error "x",
        .error "x", .error "x", .error "x", .error "x", .error "x", .error "x",
        .error "x"⟩
      ⟨"jupiter", "solana-mainnet-beta", "SOL-USDC", "BUY", 1, some 1, none⟩ =
      (.error ⟨400, "No wallet configured for chain \x27solana\x27"⟩, [GwCall.getWallets]) ∧
    ("No wallet configured for chain \x27solana\x27" : String) ≠
      "Error executing swap: connection refused" := by
  constructor
  · decide
  · decide

/-- C9 (amended): failures of downstream calls are surfaced once (never
retried) as 500 errors carrying the upstream message — except that a
transport failure of the wallet listing inside default-wallet resolution is
swallowed (`get_default_wallet_address` returns `None`), which the operations
then report as the chain having no wallet configured (400). -/
theorem c9_upstream_error_amended :
    (∀ (gw : Gateway) (chain m : String) (t : List GwCall),
      gw.walletsResp = .error m →
      get_default_wallet_address gw chain t = (.ok none, t ++ [GwCall.getWallets])) ∧
    (∀ (gw : Gateway) (req : CLMMOpenPositionRequest) (cn : String × String)
        (w m : String),
      gw.pingOk = true →
      parseNetworkIdStr req.network = .ok cn →
      req.wallet_address = some w → w ≠ "" →
      gw.poolsResp = .error m →
      open_clmm_position gw req =
        (.error ⟨500, "Error opening CLMM position: " ++ m⟩, [GwCall.getPools])) ∧
    (∀ (gw : Gateway) (req : SwapExecuteRequest) (cn : String × String)
        (w : String) (bq : String × String) (m : String),
      gw.pingOk = true →
      parseNetworkIdStr req.network = .ok cn →
      req.wallet_address = some w → w ≠ "" →
      unpackPair req.trading_pair = .ok bq →
      gw.swapResp = .error m →
      execute_swap gw req =
        (.error ⟨500, "Error executing swap: " ++ m⟩, [GwCall.executeSwap])) := by
  refine ⟨?_, ?_, ?_⟩
  · intro gw chain m t hw
    unfold get_default_wallet_address defaultWalletOf
    rw [hw]
  · intro gw req cn w m hping hparse hw hwne hpools
    have hwt : truthyStr req.wallet_address = some w := by
      simp [truthyStr, hw, hwne]
    unfold open_clmm_position
    simp [runHandler, andThen, pingGuard, ofValueErr, gwCall, pureGw, throwHttp,
      get_wallet_address, hping, hparse, hwt, hpools]
  · intro gw req cn w bq m hping hparse hw hwne hbq hswap
    have hwt : truthyStr req.wallet_address = some w := by
      simp [truthyStr, hw, hwne]
    unfold execute_swap
    simp [runHandler, andThen, pingGuard, ofValueErr, gwCall, pureGw, throwHttp,
      get_wallet_address, hping, hparse, hwt, hbq, hswap]

/-- Witness for the amended C9: a failing wallet listing yields `None` with
the call still recorded, and a failing pool listing during open-position is
surfaced once as a 500 carrying the upstream message. -/
theorem c9_upstream_error_amended_witness :
    get_default_wallet_address
      ⟨true, .error "connection refused", .ok [], .error "x", .error "x", .error "x",
        .error "x", .error "x", .error "x", .error "x", .error "x", .error "x",
        .error "x"⟩
      "solana" [] = (.ok none, [GwCall.getWallets]) ∧
    open_clmm_position
      ⟨true, .ok [], .error "boom", .error "x", .error "x", .error "x", .error "x",
        .error "x", .error "x", .error "x", .error "x", .error "x", .error "x"⟩
      ⟨"meteora", "solana-mainnet-beta", "SOL-USDC", some 95, some 105, none, none, none,
        some 1, some 100, some 1, some "W9"⟩ =
      (.error ⟨500, "Error opening CLMM position: boom"⟩, [GwCall.getPools]) :=
  ⟨c9_upstream_error_amended.1 _ "solana" "connection refused" [] rfl,
    c9_upstream_error_amended.2.1 _ _ ("solana", "mainnet-beta") "W9" "boom"
      rfl (by decide) rfl (by decide) rfl⟩
